import Mathlib

/-! # Qearn recovery tool: fixed-capacity `array` container and the compaction pass

Shallow embedding of `recovery_tool.cpp`.

* `uint32_t` / `uint64_t` values are natural numbers; every operation of the
  program that can leave the range is reduced modulo `2^32` / `2^64`
  explicitly (`add32`, `sub32`, `add64`, `sub64`).
* `array<T, L>` is a structure around a table of `L` slots.  Raw slot accesses
  `_values[k]` are bounds checked (`array.read`, `array.write`).
* The globals of the program that are persisted form `Snapshot`; `Machine`
  adds the working buffer `newLocker` and the local counters of `main`.
* `readOldState` and `writeNewState` move raw bytes; for them the globals are
  the byte lists of `Image`.
-/

namespace RecoveryTool

/-! ## Constants -/

/-- Source: `constexpr uint64_t QEARN_MAX_LOCKS = 4194304;` -/
def QEARN_MAX_LOCKS : Nat := 4194304

/-- Source: `constexpr uint64_t QEARN_MAX_EPOCHS = 4096;` -/
def QEARN_MAX_EPOCHS : Nat := 4096

/-- Source: `constexpr uint64_t QEARN_MAX_USERS = 131072;` -/
def QEARN_MAX_USERS : Nat := 131072

/-! ## Machine arithmetic -/

/-- Addition of two `uint32_t` values. -/
def add32 (a b : Nat) : Nat := (a + b) % 2 ^ 32

/-- Subtraction of two `uint32_t` values (wraps around below zero). -/
def sub32 (a b : Nat) : Nat := (a + (2 ^ 32 - b % 2 ^ 32)) % 2 ^ 32

/-- Addition of two `uint64_t` values. -/
def add64 (a b : Nat) : Nat := (a + b) % 2 ^ 64

/-- Subtraction of two `uint64_t` values (wraps around below zero). -/
def sub64 (a b : Nat) : Nat := (a + (2 ^ 64 - b % 2 ^ 64)) % 2 ^ 64

/-! ## `template <typename T, uint64_t L> struct array` -/

/-- Source: `struct array` with its only member `T _values[L]`. -/
structure array (T : Type) (L : Nat) where
  _values : Fin L → T

namespace array

variable {T : Type} {L : Nat}

/-- Source: `capacity()` returns `L`. -/
def capacity (_a : array T L) : Nat := L

/-- Raw slot read `_values[k]`, bounds checked: outside the table the
default value stands for the undefined read. -/
def read [Inhabited T] (a : array T L) (k : Nat) : T :=
  if h : k < L then a._values ⟨k, h⟩ else default

/-- Raw slot write `_values[k] = value`, bounds checked: outside the table
nothing is stored. -/
def write (a : array T L) (k : Nat) (value : T) : array T L :=
  if k < L then ⟨fun p => if p.val = k then value else a._values p⟩ else a

/-- Source: `get(index)` returns `_values[index & (L - 1)]`. -/
def get [Inhabited T] (a : array T L) (index : Nat) : T :=
  a.read (index &&& (L - 1))

/-- Source: `set(index, value)` stores into `_values[index & (L - 1)]`. -/
def set (a : array T L) (index : Nat) (value : T) : array T L :=
  a.write (index &&& (L - 1)) value

/-- Source: `setAll(value)`, the loop `for (i = 0; i < L; ++i) _values[i] = value`. -/
def setAll (a : array T L) (value : T) : array T L :=
  (List.range L).foldl (fun acc i => acc.write i value) a

/-- Source: `setRange(indexBegin, indexEnd, value)`, the loop
`for (i = indexBegin; i < indexEnd; ++i) _values[i & (L - 1)] = value`. -/
def setRange (a : array T L) (indexBegin indexEnd : Nat) (value : T) : array T L :=
  (List.range' indexBegin (indexEnd - indexBegin)).foldl
    (fun acc i => acc.write (i &&& (L - 1)) value) a

/-- The loop of `rangeEquals`: `n` iterations are left and `i` is the loop
variable; the first slot that differs from `value` returns `false`. -/
def rangeEqualsLoop [Inhabited T] [DecidableEq T] (a : array T L) (value : T) :
    Nat → Nat → Bool
  | 0, _ => true
  | n + 1, i => if ¬ (a.read i = value) then false else rangeEqualsLoop a value n (i + 1)

/-- Source: `rangeEquals(indexBegin, indexEnd, value)`. -/
def rangeEquals [Inhabited T] [DecidableEq T] (a : array T L)
    (indexBegin indexEnd : Nat) (value : T) : Bool :=
  if indexEnd > L ∨ indexBegin > indexEnd then false
  else rangeEqualsLoop a value (indexEnd - indexBegin) indexBegin

end array

/-! ## Records of the snapshot -/

/-- Source: `typedef m256i id;` the 256-bit identity value, with `id::zero()`
the value `0`. -/
abbrev m256i : Type := Nat

/-- Source: `struct RoundInfo`. -/
structure RoundInfo where
  _totalLockedAmount : Nat
  _epochBonusAmount : Nat
deriving DecidableEq

/-- Source: `struct EpochIndexInfo`. -/
structure EpochIndexInfo where
  startIndex : Nat
  endIndex : Nat
deriving DecidableEq

/-- Source: `struct LockInfo`. -/
structure LockInfo where
  _lockedAmount : Nat
  ID : m256i
  _lockedEpoch : Nat
deriving DecidableEq

/-- Source: `struct HistoryInfo`. -/
structure HistoryInfo where
  _unlockedAmount : Nat
  _rewardedAmount : Nat
  _unlockedID : m256i
deriving DecidableEq

/-- Source: `struct StatsInfo`. -/
structure StatsInfo where
  burnedAmount : Nat
  boostedAmount : Nat
  rewardedAmount : Nat
deriving DecidableEq

instance : Inhabited RoundInfo := ⟨⟨0, 0⟩⟩
instance : Inhabited EpochIndexInfo := ⟨⟨0, 0⟩⟩
instance : Inhabited LockInfo := ⟨⟨0, 0, 0⟩⟩
instance : Inhabited HistoryInfo := ⟨⟨0, 0, 0⟩⟩
instance : Inhabited StatsInfo := ⟨⟨0, 0, 0⟩⟩

/-- Source: `LockInfo{0, id::zero(), 0}`, the record stored by the zero fill. -/
def zeroLock : LockInfo := ⟨0, 0, 0⟩

/-! ## Program state -/

/-- The persisted globals, in the order `readOldState` / `writeNewState`
transfer them. -/
structure Snapshot where
  _initialRoundInfo : array RoundInfo QEARN_MAX_EPOCHS
  _currentRoundInfo : array RoundInfo QEARN_MAX_EPOCHS
  _epochIndex : array EpochIndexInfo QEARN_MAX_EPOCHS
  locker : array LockInfo QEARN_MAX_LOCKS
  earlyUnlocker : array HistoryInfo QEARN_MAX_USERS
  fullyUnlocker : array HistoryInfo QEARN_MAX_USERS
  _earlyUnlockedCnt : Nat
  _fullyUnlockedCnt : Nat
  statsInfo : array StatsInfo QEARN_MAX_EPOCHS

/-- The persisted globals together with the global working buffer
`newLocker` and the locals `cur_cnt`, `newLockerCnt`,
`totalLockedAmountInEpoch172` of `main`. -/
structure Machine extends Snapshot where
  newLocker : array LockInfo QEARN_MAX_LOCKS
  cur_cnt : Nat
  newLockerCnt : Nat
  totalLockedAmountInEpoch172 : Nat

/-- State of `main` right after `readOldState`: `newLocker` is a global with
static storage, hence all zero, and the three locals are initialised to `0`. -/
def Machine.start (s : Snapshot) : Machine :=
  { toSnapshot := s
    newLocker := ⟨fun _ => zeroLock⟩
    cur_cnt := 0
    newLockerCnt := 0
    totalLockedAmountInEpoch172 := 0 }

/-! ## The compaction pass of `main` (lines 230-255)

The program fixes the window `138 .. 173` and the corrected epoch `172`; the
embedding takes them as the parameters `epochLow`, `epochHigh`, `epochFix`. -/

/-- Body of the inner loop `for (j = startIndex; j < endIndex; j++)` in epoch
`i`; the second component is the local `cnt`. -/
def scanBody (epochFix i : Nat) (st : Machine × Nat) (j : Nat) : Machine × Nat :=
  if (st.1.locker.get j)._lockedAmount = 0 then
    (st.1, add32 st.2 1)
  else
    ({ st.1 with
        newLocker := st.1.newLocker.set st.1.newLockerCnt (st.1.locker.get j)
        newLockerCnt := add32 st.1.newLockerCnt 1
        totalLockedAmountInEpoch172 :=
          if i = epochFix then
            add64 st.1.totalLockedAmountInEpoch172 (st.1.locker.get j)._lockedAmount
          else st.1.totalLockedAmountInEpoch172 }, st.2)

/-- Body of the outer loop `for (i = 138; i <= 173; i++)`. -/
def epochBody (epochFix : Nat) (m : Machine) (i : Nat) : Machine :=
  let startIndex := (m._epochIndex.get i).startIndex
  let endIndex := (m._epochIndex.get i).endIndex
  let st := (List.range' startIndex (endIndex - startIndex)).foldl (scanBody epochFix i) (m, 0)
  let tempEpochIndex : EpochIndexInfo :=
    { startIndex := sub32 startIndex st.1.cur_cnt
      endIndex := sub32 (sub32 endIndex st.1.cur_cnt) st.2 }
  { st.1 with
      _epochIndex := st.1._epochIndex.set i tempEpochIndex
      cur_cnt := add32 st.1.cur_cnt st.2 }

/-- The compaction loop over the window `epochLow .. epochHigh` (inclusive). -/
def compactionPass (epochLow epochHigh epochFix : Nat) (m : Machine) : Machine :=
  (List.range' epochLow (epochHigh + 1 - epochLow)).foldl (epochBody epochFix) m

/-- Body of the loop `for (i = 0; i < QEARN_MAX_USERS; i++)` (lines 257-267). -/
def materializeBody (m : Machine) (i : Nat) : Machine :=
  if i < m.newLockerCnt then
    { m with locker := m.locker.set i (m.newLocker.get i) }
  else
    { m with locker := m.locker.set i zeroLock }

/-- The loop that copies the compacted records back and zero fills. -/
def materialize (m : Machine) : Machine :=
  (List.range QEARN_MAX_USERS).foldl materializeBody m

/-- The round-info correction (lines 273-277). -/
def correction (epochFix : Nat) (m : Machine) : Machine :=
  let tempRoundInfo : RoundInfo :=
    { _totalLockedAmount := m.totalLockedAmountInEpoch172
      _epochBonusAmount :=
        sub64 (m._currentRoundInfo.get epochFix)._epochBonusAmount m.totalLockedAmountInEpoch172 }
  { m with
      _currentRoundInfo := m._currentRoundInfo.set epochFix tempRoundInfo
      _initialRoundInfo := m._initialRoundInfo.set epochFix tempRoundInfo }

/-- The whole repair pass on a loaded snapshot: compaction, materialisation
and correction; the result is the state handed to `writeNewState`. -/
def repairPass (epochLow epochHigh epochFix : Nat) (s : Snapshot) : Snapshot :=
  (correction epochFix
    (materialize (compactionPass epochLow epochHigh epochFix (Machine.start s)))).toSnapshot

/-- The pass with the constants of the program. -/
def mainPass (s : Snapshot) : Snapshot := repairPass 138 173 172 s

/-- Source: `main`, with the file system abstracted: `oldState` is the state
`readOldState` loads (`none` when the file cannot be opened, which throws),
`lockerFileOk` tells whether `locker.csv` could be created (`return 1`
otherwise) and `writeOk` whether `writeNewState` succeeds (it throws
otherwise).  The result is the exit status together with the state written on
success.  Between loading and writing, `main` contains no other `return` and
no `throw`. -/
def main (oldState : Option Snapshot) (lockerFileOk writeOk : Bool) : Nat × Option Snapshot :=
  match oldState with
  | none => (1, none)
  | some s =>
    if !lockerFileOk then (1, none)
    else if !writeOk then (1, none)
    else (0, some (mainPass s))

/-! ## The snapshot codec (`readOldState`, `writeNewState`)

Both functions transfer the object representation of the nine persisted
globals with `reinterpret_cast<char*>` and `sizeof`.  At this level a global
is the list of its bytes, and the number of bytes a transfer moves is the
length of that list. -/

/-- One `char` of a file or of an object representation. -/
abbrev Byte : Type := Fin 256

/-- Source: `std::ifstream`, opened in binary mode: the bytes not yet
extracted and whether the stream is still good. -/
structure ifstream where
  rest : List Byte
  good : Bool

/-- Source: `infile.read(reinterpret_cast<char*>(&object), sizeof(object))`.
A good stream with enough bytes fills the object; a good stream that runs out
stores the bytes it has in the front of the object and fails; a failed stream
extracts nothing. -/
def ifstream.read (f : ifstream) (object : List Byte) : ifstream × List Byte :=
  if f.good then
    if object.length ≤ f.rest.length then
      ({ rest := f.rest.drop object.length, good := true }, f.rest.take object.length)
    else
      ({ rest := [], good := false }, f.rest ++ object.drop f.rest.length)
  else (f, object)

/-- The object representations of the persisted globals. -/
structure Image where
  _initialRoundInfo : List Byte
  _currentRoundInfo : List Byte
  _epochIndex : List Byte
  locker : List Byte
  earlyUnlocker : List Byte
  fullyUnlocker : List Byte
  _earlyUnlockedCnt : List Byte
  _fullyUnlockedCnt : List Byte
  statsInfo : List Byte

/-- The number of bytes of the persisted globals, the sum of their `sizeof`. -/
def Image.size (g : Image) : Nat :=
  g._initialRoundInfo.length + g._currentRoundInfo.length + g._epochIndex.length +
    g.locker.length + g.earlyUnlocker.length + g.fullyUnlocker.length +
    g._earlyUnlockedCnt.length + g._fullyUnlockedCnt.length + g.statsInfo.length

/-- Source: `readOldState`.  `file` is the content of the file, `none` when it
cannot be opened (the function throws); `g` holds the globals before the call.
No read is checked. -/
def readOldState (file : Option (List Byte)) (g : Image) : Except String Image :=
  match file with
  | none => Except.error "Failed to open the old state file."
  | some bytes =>
    let f0 : ifstream := { rest := bytes, good := true }
    let r1 := f0.read g._initialRoundInfo
    let r2 := r1.1.read g._currentRoundInfo
    let r3 := r2.1.read g._epochIndex
    let r4 := r3.1.read g.locker
    let r5 := r4.1.read g.earlyUnlocker
    let r6 := r5.1.read g.fullyUnlocker
    let r7 := r6.1.read g._earlyUnlockedCnt
    let r8 := r7.1.read g._fullyUnlockedCnt
    let r9 := r8.1.read g.statsInfo
    Except.ok
      { _initialRoundInfo := r1.2
        _currentRoundInfo := r2.2
        _epochIndex := r3.2
        locker := r4.2
        earlyUnlocker := r5.2
        fullyUnlocker := r6.2
        _earlyUnlockedCnt := r7.2
        _fullyUnlockedCnt := r8.2
        statsInfo := r9.2 }

/-- Source: `writeNewState`, for an output file that can be opened and
written: the bytes it writes. -/
def writeNewState (g : Image) : List Byte :=
  g._initialRoundInfo ++ g._currentRoundInfo ++ g._epochIndex ++ g.locker ++
    g.earlyUnlocker ++ g.fullyUnlocker ++ g._earlyUnlockedCnt ++ g._fullyUnlockedCnt ++
    g.statsInfo

/-- The globals at program start (static storage, all bytes zero).
`RoundInfo`, `EpochIndexInfo`, `uint32_t` and `StatsInfo` occupy 16, 8, 4 and
24 bytes; the sizes of `LockInfo` and `HistoryInfo` depend on `m256.h`, which
is not part of the sources, and are parameters. -/
def zeroImage (sizeofLockInfo sizeofHistoryInfo : Nat) : Image :=
  { _initialRoundInfo := List.replicate (16 * QEARN_MAX_EPOCHS) 0
    _currentRoundInfo := List.replicate (16 * QEARN_MAX_EPOCHS) 0
    _epochIndex := List.replicate (8 * QEARN_MAX_EPOCHS) 0
    locker := List.replicate (sizeofLockInfo * QEARN_MAX_LOCKS) 0
    earlyUnlocker := List.replicate (sizeofHistoryInfo * QEARN_MAX_USERS) 0
    fullyUnlocker := List.replicate (sizeofHistoryInfo * QEARN_MAX_USERS) 0
    _earlyUnlockedCnt := List.replicate 4 0
    _fullyUnlockedCnt := List.replicate 4 0
    statsInfo := List.replicate (24 * QEARN_MAX_EPOCHS) 0 }

/-! ## Specification-level vocabulary

The sequences and counts the properties speak about, defined from the words
of the specification over the snapshot as loaded (before the pass). -/

/-- A record is live when its amount is not zero; otherwise it is a tombstone. -/
def isLive (r : LockInfo) : Bool := decide (r._lockedAmount ≠ 0)

/-- The live records met when the slots `js` of a lock table are read in order. -/
def liveAt (locker : array LockInfo QEARN_MAX_LOCKS) (js : List Nat) : List LockInfo :=
  (js.map locker.get).filter isLive

/-- The number of tombstones among the slots `js` of a lock table. -/
def tombsAt (locker : array LockInfo QEARN_MAX_LOCKS) (js : List Nat) : Nat :=
  (js.map locker.get).countP (fun r => !isLive r)

/-- The slots `startIndex, ..., endIndex - 1` of epoch `e`, in scan order. -/
def epochSlots (s : Snapshot) (e : Nat) : List Nat :=
  List.range' (s._epochIndex.get e).startIndex
    ((s._epochIndex.get e).endIndex - (s._epochIndex.get e).startIndex)

/-- The live records in the index range of epoch `e`, in slot order. -/
def epochLive (s : Snapshot) (e : Nat) : List LockInfo := liveAt s.locker (epochSlots s e)

/-- The number of tombstones in the index range of epoch `e`. -/
def epochTombs (s : Snapshot) (e : Nat) : Nat := tombsAt s.locker (epochSlots s e)

/-- The live records of the `k` epochs `lo, ..., lo + k - 1`, in ascending
epoch order. -/
def windowLive (s : Snapshot) (lo : Nat) : Nat → List LockInfo
  | 0 => []
  | k + 1 => windowLive s lo k ++ epochLive s (lo + k)

/-- The number of tombstones of the `k` epochs `lo, ..., lo + k - 1`. -/
def windowTombs (s : Snapshot) (lo : Nat) : Nat → Nat
  | 0 => 0
  | k + 1 => windowTombs s lo k + epochTombs s (lo + k)

/-- All records (live or not) in the index ranges of the `k` epochs
`lo, ..., lo + k - 1`, in ascending epoch order. -/
def windowScan (s : Snapshot) (lo : Nat) : Nat → List LockInfo
  | 0 => []
  | k + 1 => windowScan s lo k ++ (epochSlots s (lo + k)).map s.locker.get

/-- The sum of the amounts of a list of records. -/
def amountSum (rs : List LockInfo) : Nat := (rs.map (fun r => r._lockedAmount)).sum

/-- The sum over the `k` epochs `lo, ..., lo + k - 1` of the old span
`endIndex - startIndex`, over the integers. -/
def windowSpan (s : Snapshot) (lo : Nat) : Nat → Int
  | 0 => 0
  | k + 1 => windowSpan s lo k +
      (((s._epochIndex.get (lo + k)).endIndex : Int) - (s._epochIndex.get (lo + k)).startIndex)

/-- The number of slots the inner loop visits in the `k` epochs
`lo, ..., lo + k - 1`. -/
def windowSlots (s : Snapshot) (lo : Nat) : Nat → Nat
  | 0 => 0
  | k + 1 => windowSlots s lo k + (epochSlots s (lo + k)).length

/-! ## Closed forms of the loops -/

/-- Writing the records `rs` one after the other with `newLocker.set(newLockerCnt++, r)`. -/
def writeSeq (buf : array LockInfo QEARN_MAX_LOCKS) (c : Nat) :
    List LockInfo → array LockInfo QEARN_MAX_LOCKS
  | [] => buf
  | r :: rs => writeSeq (buf.set c r) (add32 c 1) rs

/-- A `uint32_t` counter after `n` increments. -/
def inc32 (c : Nat) : Nat → Nat
  | 0 => c
  | n + 1 => inc32 (add32 c 1) n

/-- A `uint64_t` accumulator after adding the amounts of `rs` one by one. -/
def sum64 (acc : Nat) : List LockInfo → Nat
  | [] => acc
  | r :: rs => sum64 (add64 acc r._lockedAmount) rs

/-- The local `cur_cnt` after the `k` epochs `lo, ..., lo + k - 1`. -/
def cumTombs32 (s : Snapshot) (lo : Nat) : Nat → Nat
  | 0 => 0
  | k + 1 => add32 (cumTombs32 s lo k) (inc32 0 (epochTombs s (lo + k)))

/-- The index entry the pass stores for epoch `e` of a window that starts at `lo`. -/
def rewrittenEntry (s : Snapshot) (lo e : Nat) : EpochIndexInfo :=
  { startIndex := sub32 (s._epochIndex.get e).startIndex (cumTombs32 s lo (e - lo))
    endIndex :=
      sub32 (sub32 (s._epochIndex.get e).endIndex (cumTombs32 s lo (e - lo)))
        (inc32 0 (epochTombs s e)) }

/-- The epoch index after the `k` epochs `lo, ..., lo + k - 1` have been rewritten. -/
def rewrittenIndex (s : Snapshot) (lo k : Nat) : array EpochIndexInfo QEARN_MAX_EPOCHS :=
  ⟨fun p => if lo ≤ p.val ∧ p.val < lo + k then rewrittenEntry s lo p.val
    else s._epochIndex._values p⟩

/-- The lock table after the first `n` iterations of the materialisation
loop, `cnt` being the value of `newLockerCnt`. -/
def materializedLocker (locker newLocker : array LockInfo QEARN_MAX_LOCKS) (cnt n : Nat) :
    array LockInfo QEARN_MAX_LOCKS :=
  ⟨fun p => if p.val < n then (if p.val < cnt then newLocker._values p else zeroLock)
    else locker._values p⟩

/-- The value of `totalLockedAmountInEpoch172` after the compaction loop over
the `k` epochs `lo, ..., lo + k - 1`. -/
def fixTotal (s : Snapshot) (lo k epochFix : Nat) : Nat :=
  if lo ≤ epochFix ∧ epochFix < lo + k then sum64 0 (epochLive s epochFix) else 0

/-- The record the correction stores for the corrected epoch. -/
def correctedRound (s : Snapshot) (lo k epochFix : Nat) : RoundInfo :=
  { _totalLockedAmount := fixTotal s lo k epochFix
    _epochBonusAmount :=
      sub64 (s._currentRoundInfo.get epochFix)._epochBonusAmount (fixTotal s lo k epochFix) }

/-! ## Example snapshots -/

/-- A snapshot whose tables are all zero. -/
def zeroSnapshot : Snapshot :=
  { _initialRoundInfo := ⟨fun _ => ⟨0, 0⟩⟩
    _currentRoundInfo := ⟨fun _ => ⟨0, 0⟩⟩
    _epochIndex := ⟨fun _ => ⟨0, 0⟩⟩
    locker := ⟨fun _ => zeroLock⟩
    earlyUnlocker := ⟨fun _ => ⟨0, 0, 0⟩⟩
    fullyUnlocker := ⟨fun _ => ⟨0, 0, 0⟩⟩
    _earlyUnlockedCnt := 0
    _fullyUnlockedCnt := 0
    statsInfo := ⟨fun _ => ⟨0, 0, 0⟩⟩ }

/-- Epoch 138 owns `[0, 1)` and epoch 139 owns `[5, 6)`: the two ranges are
not contiguous (the earlier epochs own `[0, 0)`, the later ones `[6, 6)`).
Every lock record is a tombstone. -/
def gapSnapshot : Snapshot :=
  { zeroSnapshot with
      _epochIndex := ⟨fun p => if p.val < 138 then ⟨0, 0⟩ else if p.val = 138 then ⟨0, 1⟩
        else if p.val = 139 then ⟨5, 6⟩ else ⟨6, 6⟩⟩ }

/-- Epoch 138 owns `[5, 6)`, a tombstone, and epoch 139 owns `[0, 1)`, a live
record of amount 7: each range is ordered, but epoch 139 does not start where
epoch 138 ends (the earlier epochs own `[5, 5)`, the later ones `[1, 1)`). -/
def overlapSnapshot : Snapshot :=
  { zeroSnapshot with
      _epochIndex := ⟨fun p => if p.val < 138 then ⟨5, 5⟩ else if p.val = 138 then ⟨5, 6⟩
        else if p.val = 139 then ⟨0, 1⟩ else ⟨1, 1⟩⟩
      locker := ⟨fun p => if p.val = 0 then ⟨7, 0, 0⟩ else zeroLock⟩ }

/-- Epoch 172 owns `[0, 1)`, one live record of amount 8, while the bonus
amount stored for epoch 172 is only 5.  The ranges of all epochs are ordered
and contiguous. -/
def overdrawnSnapshot : Snapshot :=
  { zeroSnapshot with
      _currentRoundInfo := ⟨fun p => if p.val = 172 then ⟨0, 5⟩ else ⟨0, 0⟩⟩
      _epochIndex := ⟨fun p => if p.val < 172 then ⟨0, 0⟩ else if p.val = 172 then ⟨0, 1⟩
        else ⟨1, 1⟩⟩
      locker := ⟨fun p => if p.val = 0 then ⟨8, 0, 0⟩ else zeroLock⟩ }

/-- The snapshot of the scenario: epoch 0 owns `[0, 4)` with amounts
`5, 0, 3, 0`, epoch 1 owns `[4, 6)` with amounts `7, 2`, and the bonus amount
of epoch 0 is 20. -/
def scenarioSnapshot : Snapshot :=
  { zeroSnapshot with
      _currentRoundInfo := ⟨fun p => if p.val = 0 then ⟨0, 20⟩ else ⟨0, 0⟩⟩
      _epochIndex := ⟨fun p => if p.val = 0 then ⟨0, 4⟩
        else if p.val = 1 then ⟨4, 6⟩ else ⟨0, 0⟩⟩
      locker := ⟨fun p => if p.val = 0 then ⟨5, 11, 0⟩ else if p.val = 2 then ⟨3, 12, 0⟩
        else if p.val = 4 then ⟨7, 13, 1⟩ else if p.val = 5 then ⟨2, 14, 1⟩ else zeroLock⟩ }

/-- Epoch 138 owns `[0, 131074)`: slot 0 is a tombstone and every slot `j`
from 1 on holds a live record of amount `j`.  The ranges of all epochs are
ordered and contiguous. -/
def crowdedSnapshot : Snapshot :=
  { zeroSnapshot with
      _epochIndex := ⟨fun p => if p.val < 138 then ⟨0, 0⟩
        else if p.val = 138 then ⟨0, 131074⟩ else ⟨131074, 131074⟩⟩
      locker := ⟨fun p => ⟨p.val, 0, 0⟩⟩ }

/-- Epoch 138 owns `[1, 2)`, one live record of amount 5; the earlier epochs
own `[1, 1)` and the later ones `[2, 2)`, so the ranges of all epochs are
ordered and contiguous, and slot 0 belongs to no epoch of the window. -/
def shiftedSnapshot : Snapshot :=
  { zeroSnapshot with
      _epochIndex := ⟨fun p => if p.val < 138 then ⟨1, 1⟩
        else if p.val = 138 then ⟨1, 2⟩ else ⟨2, 2⟩⟩
      locker := ⟨fun p => if p.val = 1 then ⟨5, 0, 0⟩ else zeroLock⟩ }

/-- The window `lo .. hi` of a snapshot is well formed: it lies in the epoch
table, its first range starts at slot 0, every range has
`startIndex <= endIndex < 2^32`, consecutive ranges are contiguous, and the
live records of the window number at most `QEARN_MAX_USERS`. -/
structure WindowOk (s : Snapshot) (lo hi : Nat) : Prop where
  window : lo ≤ hi ∧ hi < QEARN_MAX_EPOCHS
  first : (s._epochIndex.get lo).startIndex = 0
  ordered : ∀ e, lo ≤ e → e ≤ hi →
    (s._epochIndex.get e).startIndex ≤ (s._epochIndex.get e).endIndex
  contiguous : ∀ e, lo ≤ e → e < hi →
    (s._epochIndex.get e).endIndex = (s._epochIndex.get (e + 1)).startIndex
  bounded : ∀ e, lo ≤ e → e ≤ hi → (s._epochIndex.get e).endIndex < 2 ^ 32
  fits : (windowLive s lo (hi + 1 - lo)).length ≤ QEARN_MAX_USERS

/-- A well-formed snapshot for the window `138 .. 173`: epoch 171 owns
`[0, 4)` with amounts `5, 0, 3, 0`, epoch 172 owns `[4, 6)` with amounts
`7, 2`, the earlier epochs own `[0, 0)` and epoch 173 owns `[6, 6)`; the bonus
amount of epoch 172 is 20. -/
def tidySnapshot : Snapshot :=
  { zeroSnapshot with
      _currentRoundInfo := ⟨fun p => if p.val = 172 then ⟨0, 20⟩ else ⟨0, 0⟩⟩
      _epochIndex := ⟨fun p => if p.val < 171 then ⟨0, 0⟩ else if p.val = 171 then ⟨0, 4⟩
        else if p.val = 172 then ⟨4, 6⟩ else ⟨6, 6⟩⟩
      locker := ⟨fun p => if p.val = 0 then ⟨5, 11, 171⟩ else if p.val = 2 then ⟨3, 12, 171⟩
        else if p.val = 4 then ⟨7, 13, 172⟩ else if p.val = 5 then ⟨2, 14, 172⟩ else zeroLock⟩ }

/-- A ring of capacity `2^2` whose slot `k` holds `k`. -/
def sampleRing : array Nat (2 ^ 2) := ⟨fun p => p.val⟩

/-- The round info a second application of the pass stores for `epochFix`:
the live total again, and the bonus amount with the live total subtracted
twice. -/
def secondRound (s : Snapshot) (epochFix : Nat) : RoundInfo :=
  { _totalLockedAmount := amountSum (epochLive s epochFix) % 2 ^ 64
    _epochBonusAmount :=
      sub64 (sub64 (s._currentRoundInfo.get epochFix)._epochBonusAmount
        (amountSum (epochLive s epochFix))) (amountSum (epochLive s epochFix)) }

/-- Epoch 138 has `startIndex = 5` and `endIndex = 3`; the earlier epochs own
`[5, 5)` and the later ones `[3, 3)`.  Every lock record is a tombstone. -/
def reversedSnapshot : Snapshot :=
  { zeroSnapshot with
      _epochIndex := ⟨fun p => if p.val < 138 then ⟨5, 5⟩ else if p.val = 138 then ⟨5, 3⟩
        else ⟨3, 3⟩⟩ }

/-- The index ranges of the window `lo .. hi` satisfy the `EpochIndexInfo`
invariants: the window lies in the epoch table, every range has
`startIndex <= endIndex` (both `uint32_t`, so below `2^32`) and consecutive
ranges are contiguous. -/
structure RangesOk (s : Snapshot) (lo hi : Nat) : Prop where
  window : lo ≤ hi ∧ hi < QEARN_MAX_EPOCHS
  ordered : ∀ e, lo ≤ e → e ≤ hi →
    (s._epochIndex.get e).startIndex ≤ (s._epochIndex.get e).endIndex
  contiguous : ∀ e, lo ≤ e → e < hi →
    (s._epochIndex.get e).endIndex = (s._epochIndex.get (e + 1)).startIndex
  bounded : ∀ e, lo ≤ e → e ≤ hi → (s._epochIndex.get e).endIndex < 2 ^ 32

/-- The scenario placed where the program looks: the epochs before 172 own
`[0, 0)`, epoch 172 owns `[0, 4)` with amounts `5, 0, 3, 0`, epoch 173 owns
`[4, 6)` with amounts `7, 2`, and the bonus amount of epoch 172 is 20. -/
def movedScenarioSnapshot : Snapshot :=
  { zeroSnapshot with
      _currentRoundInfo := ⟨fun p => if p.val = 172 then ⟨0, 20⟩ else ⟨0, 0⟩⟩
      _epochIndex := ⟨fun p => if p.val < 172 then ⟨0, 0⟩ else if p.val = 172 then ⟨0, 4⟩
        else if p.val = 173 then ⟨4, 6⟩ else ⟨6, 6⟩⟩
      locker := ⟨fun p => if p.val = 0 then ⟨5, 11, 172⟩ else if p.val = 2 then ⟨3, 12, 172⟩
        else if p.val = 4 then ⟨7, 13, 173⟩ else if p.val = 5 then ⟨2, 14, 173⟩ else zeroLock⟩ }

/-- Ordered, contiguous ranges that start at slot 3: the epochs before 171 own
`[3, 3)`, epoch 171 owns `[3, 7)` with amounts `5, 0, 3, 0`, epoch 172 owns
`[7, 9)` with amounts `7, 2`, and the later epochs own `[9, 9)`. -/
def offsetSnapshot : Snapshot :=
  { zeroSnapshot with
      _epochIndex := ⟨fun p => if p.val < 171 then ⟨3, 3⟩ else if p.val = 171 then ⟨3, 7⟩
        else if p.val = 172 then ⟨7, 9⟩ else ⟨9, 9⟩⟩
      locker := ⟨fun p => if p.val = 3 then ⟨5, 11, 171⟩ else if p.val = 5 then ⟨3, 12, 171⟩
        else if p.val = 7 then ⟨7, 13, 172⟩ else if p.val = 8 then ⟨2, 14, 172⟩ else zeroLock⟩ }

/-! ## Theorems about `array` -/

theorem array.read_write {T : Type} [Inhabited T] {L : Nat} (a : array T L) (k i : Nat) (v : T)
    (hk : k < L) : (a.write k v).read i = if i = k then v else a.read i := by
  unfold array.write array.read
  simp only [hk, if_true]
  by_cases hi : i < L
  · simp [hi]
  · have : i ≠ k := by omega
    simp [hi, this]

theorem array.mask_eq_mod (n index : Nat) : index &&& (2 ^ n - 1) = index % 2 ^ n :=
  Nat.and_pow_two_sub_one_eq_mod index n

theorem array.get_eq_read {T : Type} [Inhabited T] (n : Nat) (a : array T (2 ^ n)) (index : Nat) :
    a.get index = a.read (index % 2 ^ n) := by
  unfold array.get
  rw [array.mask_eq_mod]

theorem array.get_set {T : Type} [Inhabited T] (n : Nat) (a : array T (2 ^ n)) (i j : Nat) (v : T) :
    (a.set j v).get i = if i % 2 ^ n = j % 2 ^ n then v else a.get i := by
  have hj : j % 2 ^ n < 2 ^ n := Nat.mod_lt _ (Nat.two_pow_pos n)
  unfold array.set
  rw [array.get_eq_read, array.get_eq_read, array.mask_eq_mod, array.read_write _ _ _ _ hj]


/-! ## The inner scan loop -/

theorem liveAt_cons (locker : array LockInfo QEARN_MAX_LOCKS) (j : Nat) (js : List Nat) :
    liveAt locker (j :: js) =
      if (locker.get j)._lockedAmount = 0 then liveAt locker js
      else locker.get j :: liveAt locker js := by
  unfold liveAt
  by_cases h : (locker.get j)._lockedAmount = 0 <;> simp [List.filter_cons, isLive, h]

theorem tombsAt_cons (locker : array LockInfo QEARN_MAX_LOCKS) (j : Nat) (js : List Nat) :
    tombsAt locker (j :: js) =
      if (locker.get j)._lockedAmount = 0 then tombsAt locker js + 1
      else tombsAt locker js := by
  unfold tombsAt
  by_cases h : (locker.get j)._lockedAmount = 0 <;> simp [List.countP_cons, isLive, h]

theorem inc32_succ (c n : Nat) : inc32 c (n + 1) = inc32 (add32 c 1) n := rfl

theorem scan_fold (epochFix i : Nat) (js : List Nat) (m : Machine) (cnt : Nat) :
    js.foldl (scanBody epochFix i) (m, cnt) =
      ({ m with
          newLocker := writeSeq m.newLocker m.newLockerCnt (liveAt m.locker js)
          newLockerCnt := inc32 m.newLockerCnt (liveAt m.locker js).length
          totalLockedAmountInEpoch172 :=
            if i = epochFix then sum64 m.totalLockedAmountInEpoch172 (liveAt m.locker js)
            else m.totalLockedAmountInEpoch172 },
        inc32 cnt (tombsAt m.locker js)) := by
  induction js generalizing m cnt with
  | nil => simp [liveAt, tombsAt, writeSeq, inc32, sum64]
  | cons j js ih =>
    rw [List.foldl_cons, liveAt_cons, tombsAt_cons]
    by_cases h : (m.locker.get j)._lockedAmount = 0
    · simp only [scanBody, h, if_true]
      rw [ih]
      simp [inc32]
    · simp only [scanBody, h, if_false]
      rw [ih]
      by_cases hi : i = epochFix <;> simp [inc32, writeSeq, sum64, hi]


/-! ## The loop over the window -/

theorem array.ext_values {T : Type} {L : Nat} (a b : array T L)
    (h : ∀ p, a._values p = b._values p) : a = b := by
  cases a; cases b
  congr
  exact funext h

theorem array.mask_of_lt {L : Nat} (n : Nat) (hL : L = 2 ^ n) (k : Nat) (hk : k < L) :
    k &&& (L - 1) = k := by
  subst hL
  rw [array.mask_eq_mod, Nat.mod_eq_of_lt hk]

theorem epochs_pow : QEARN_MAX_EPOCHS = 2 ^ 12 := by decide

theorem locks_pow : QEARN_MAX_LOCKS = 2 ^ 22 := by decide

theorem epochBody_eq (epochFix : Nat) (m : Machine) (i : Nat) :
    epochBody epochFix m i =
      { m with
          newLocker := writeSeq m.newLocker m.newLockerCnt
            (liveAt m.locker (epochSlots m.toSnapshot i))
          newLockerCnt := inc32 m.newLockerCnt
            (liveAt m.locker (epochSlots m.toSnapshot i)).length
          totalLockedAmountInEpoch172 :=
            if i = epochFix then
              sum64 m.totalLockedAmountInEpoch172 (liveAt m.locker (epochSlots m.toSnapshot i))
            else m.totalLockedAmountInEpoch172
          _epochIndex := m._epochIndex.set i
            { startIndex := sub32 (m._epochIndex.get i).startIndex m.cur_cnt
              endIndex := sub32 (sub32 (m._epochIndex.get i).endIndex m.cur_cnt)
                (inc32 0 (tombsAt m.locker (epochSlots m.toSnapshot i))) }
          cur_cnt := add32 m.cur_cnt
            (inc32 0 (tombsAt m.locker (epochSlots m.toSnapshot i))) } := by
  unfold epochBody epochSlots
  simp only [scan_fold]

theorem writeSeq_append (buf : array LockInfo QEARN_MAX_LOCKS) (c : Nat)
    (xs ys : List LockInfo) :
    writeSeq buf c (xs ++ ys) = writeSeq (writeSeq buf c xs) (inc32 c xs.length) ys := by
  induction xs generalizing buf c with
  | nil => simp [writeSeq, inc32]
  | cons x xs ih => simp [writeSeq, inc32, ih]

theorem inc32_add (c a b : Nat) : inc32 c (a + b) = inc32 (inc32 c a) b := by
  induction a generalizing c with
  | zero => simp [inc32]
  | succ a ih => rw [Nat.succ_add, inc32_succ, inc32_succ, ih]

theorem rewrittenIndex_get_next (s : Snapshot) (lo k : Nat) (h : lo + k < QEARN_MAX_EPOCHS) :
    (rewrittenIndex s lo k).get (lo + k) = s._epochIndex.get (lo + k) := by
  unfold array.get
  rw [array.mask_of_lt 12 epochs_pow _ h]
  unfold array.read rewrittenIndex
  simp [h]

theorem rewrittenIndex_set_next (s : Snapshot) (lo k : Nat) (h : lo + k < QEARN_MAX_EPOCHS) :
    (rewrittenIndex s lo k).set (lo + k) (rewrittenEntry s lo (lo + k)) =
      rewrittenIndex s lo (k + 1) := by
  unfold array.set
  rw [array.mask_of_lt 12 epochs_pow _ h]
  unfold array.write
  rw [if_pos h]
  apply array.ext_values
  intro p
  simp only [rewrittenIndex]
  by_cases hp : p.val = lo + k
  · have h1 : lo ≤ p.val ∧ p.val < lo + (k + 1) := by omega
    simp [hp]
  · by_cases h2 : lo ≤ p.val ∧ p.val < lo + k
    · have h3 : lo ≤ p.val ∧ p.val < lo + (k + 1) := by omega
      simp [hp, h2, h3]
    · have h3 : ¬ (lo ≤ p.val ∧ p.val < lo + (k + 1)) := by omega
      simp [hp, h2, h3]

theorem compaction_fold (s : Snapshot) (lo epochFix : Nat) (k : Nat)
    (hk : lo + k ≤ QEARN_MAX_EPOCHS) :
    (List.range' lo k).foldl (epochBody epochFix) (Machine.start s) =
      { toSnapshot := { s with _epochIndex := rewrittenIndex s lo k }
        newLocker := writeSeq ⟨fun _ => zeroLock⟩ 0 (windowLive s lo k)
        cur_cnt := cumTombs32 s lo k
        newLockerCnt := inc32 0 (windowLive s lo k).length
        totalLockedAmountInEpoch172 :=
          if lo ≤ epochFix ∧ epochFix < lo + k then sum64 0 (epochLive s epochFix) else 0 } := by
  induction k with
  | zero =>
    simp only [List.range'_zero, List.foldl_nil, Machine.start, windowLive, cumTombs32,
      writeSeq, inc32, List.length_nil]
    have h0 : rewrittenIndex s lo 0 = s._epochIndex := by
      apply array.ext_values
      intro p
      simp [rewrittenIndex]
    have h1 : ¬ (lo ≤ epochFix ∧ epochFix < lo + 0) := by omega
    rw [h0, if_neg h1]
  | succ k ih =>
    have hlt : lo + k < QEARN_MAX_EPOCHS := by omega
    rw [List.range'_concat, List.foldl_append, ih (by omega)]
    simp only [List.foldl_cons, List.foldl_nil, Nat.one_mul]
    rw [epochBody_eq]
    simp only [epochSlots, rewrittenIndex_get_next s lo k hlt]
    have hset := rewrittenIndex_set_next s lo k hlt
    simp only [rewrittenEntry, Nat.add_sub_cancel_left, epochTombs, epochSlots] at hset
    simp only [hset, windowLive, cumTombs32, epochTombs, epochLive, epochSlots,
      writeSeq_append, List.length_append, inc32_add]
    congr 1
    by_cases hf : lo + k = epochFix
    · subst hf
      simp
    · by_cases h2 : lo ≤ epochFix ∧ epochFix < lo + k
      · have h3 : lo ≤ epochFix ∧ epochFix < lo + (k + 1) := by omega
        simp [hf, h2, h3]
      · have h3 : ¬ (lo ≤ epochFix ∧ epochFix < lo + (k + 1)) := by omega
        simp [hf, h2, h3]


/-! ## Materialisation and correction -/

theorem materialize_fold (m : Machine) (n : Nat) (hn : n ≤ QEARN_MAX_LOCKS) :
    (List.range n).foldl materializeBody m =
      { m with locker := materializedLocker m.locker m.newLocker m.newLockerCnt n } := by
  induction n with
  | zero =>
    have h0 : materializedLocker m.locker m.newLocker m.newLockerCnt 0 = m.locker := by
      apply array.ext_values
      intro p
      simp [materializedLocker]
    simp [h0]
  | succ n ih =>
    have hlt : n < QEARN_MAX_LOCKS := by omega
    rw [List.range_succ, List.foldl_append, ih (by omega)]
    simp only [List.foldl_cons, List.foldl_nil, materializeBody]
    have hstep : ∀ v : LockInfo,
        (materializedLocker m.locker m.newLocker m.newLockerCnt n).set n v =
          ⟨fun p => if p.val = n then v
            else (materializedLocker m.locker m.newLocker m.newLockerCnt n)._values p⟩ := by
      intro v
      unfold array.set
      rw [array.mask_of_lt 22 locks_pow _ hlt]
      unfold array.write
      rw [if_pos hlt]
    have hget : m.newLocker.get n = m.newLocker._values ⟨n, hlt⟩ := by
      unfold array.get
      rw [array.mask_of_lt 22 locks_pow _ hlt]
      unfold array.read
      rw [dif_pos hlt]
    by_cases hc : n < m.newLockerCnt
    · simp only [hc, if_true, hstep, hget]
      congr 2
      apply array.ext_values
      intro p
      simp only [materializedLocker]
      by_cases hp : p.val = n
      · have hp2 : p = ⟨n, hlt⟩ := Fin.ext hp
        have h1 : p.val < n + 1 := by omega
        simp only [hp, if_true, h1, hc]
        rw [hp2]
        simp [hc]
      · by_cases h2 : p.val < n
        · have h3 : p.val < n + 1 := by omega
          simp [hp, h2, h3]
        · have h3 : ¬ p.val < n + 1 := by omega
          simp [hp, h2, h3]
    · simp only [hc, if_false, hstep]
      congr 2
      apply array.ext_values
      intro p
      simp only [materializedLocker]
      by_cases hp : p.val = n
      · have h1 : p.val < n + 1 := by omega
        have h4 : ¬ p.val < m.newLockerCnt := by omega
        simp [hp, hc]
      · by_cases h2 : p.val < n
        · have h3 : p.val < n + 1 := by omega
          simp [hp, h2, h3]
        · have h3 : ¬ p.val < n + 1 := by omega
          simp [hp, h2, h3]

theorem repairPass_eq (s : Snapshot) (lo hi epochFix : Nat) (hlo : lo ≤ hi)
    (hhi : hi < QEARN_MAX_EPOCHS) :
    repairPass lo hi epochFix s =
      { s with
          _initialRoundInfo :=
            s._initialRoundInfo.set epochFix (correctedRound s lo (hi + 1 - lo) epochFix)
          _currentRoundInfo :=
            s._currentRoundInfo.set epochFix (correctedRound s lo (hi + 1 - lo) epochFix)
          _epochIndex := rewrittenIndex s lo (hi + 1 - lo)
          locker := materializedLocker s.locker
            (writeSeq ⟨fun _ => zeroLock⟩ 0 (windowLive s lo (hi + 1 - lo)))
            (inc32 0 (windowLive s lo (hi + 1 - lo)).length) QEARN_MAX_USERS } := by
  unfold repairPass compactionPass materialize
  rw [compaction_fold s lo epochFix (hi + 1 - lo) (by omega),
    materialize_fold _ _ (by decide)]
  simp only [correction, correctedRound, fixTotal]


/-! ## Arithmetic of the counters -/

theorem inc32_eq (c n : Nat) (hc : c < 2 ^ 32) : inc32 c n = (c + n) % 2 ^ 32 := by
  induction n generalizing c with
  | zero =>
    simp only [inc32, Nat.add_zero]
    omega
  | succ n ih =>
    rw [inc32_succ, ih _ (by unfold add32; exact Nat.mod_lt _ (by decide))]
    unfold add32
    omega

theorem inc32_zero (n : Nat) : inc32 0 n = n % 2 ^ 32 := by
  rw [inc32_eq 0 n (by decide), Nat.zero_add]

theorem cumTombs32_eq (s : Snapshot) (lo k : Nat) :
    cumTombs32 s lo k = windowTombs s lo k % 2 ^ 32 := by
  induction k with
  | zero => simp [cumTombs32, windowTombs]
  | succ k ih =>
    simp only [cumTombs32, windowTombs, ih, inc32_zero, add32]
    omega

theorem sub32_sub32 (a b c : Nat) : sub32 (sub32 a b) c = sub32 a (add32 b c) := by
  unfold sub32 add32
  omega

theorem sum64_eq (acc : Nat) (rs : List LockInfo) (hacc : acc < 2 ^ 64) :
    sum64 acc rs = (acc + amountSum rs) % 2 ^ 64 := by
  induction rs generalizing acc with
  | nil =>
    simp only [sum64, amountSum, List.map_nil, List.sum_nil, Nat.add_zero]
    omega
  | cons r rs ih =>
    rw [sum64, ih _ (by unfold add64; exact Nat.mod_lt _ (by decide))]
    simp only [amountSum, List.map_cons, List.sum_cons, add64]
    omega

/-! ## The epoch index after the compaction loop -/

theorem rewrittenIndex_get (s : Snapshot) (lo k e : Nat) (he : e < QEARN_MAX_EPOCHS) :
    (rewrittenIndex s lo k).get e =
      if lo ≤ e ∧ e < lo + k then rewrittenEntry s lo e else s._epochIndex.get e := by
  unfold array.get
  rw [array.mask_of_lt 12 epochs_pow _ he]
  unfold array.read rewrittenIndex
  simp only [he, dif_pos]


theorem compactionPass_eq (s : Snapshot) (lo hi epochFix : Nat) (hlo : lo ≤ hi)
    (hhi : hi < QEARN_MAX_EPOCHS) :
    compactionPass lo hi epochFix (Machine.start s) =
      { toSnapshot := { s with _epochIndex := rewrittenIndex s lo (hi + 1 - lo) }
        newLocker := writeSeq ⟨fun _ => zeroLock⟩ 0 (windowLive s lo (hi + 1 - lo))
        cur_cnt := cumTombs32 s lo (hi + 1 - lo)
        newLockerCnt := inc32 0 (windowLive s lo (hi + 1 - lo)).length
        totalLockedAmountInEpoch172 := fixTotal s lo (hi + 1 - lo) epochFix } := by
  unfold compactionPass
  rw [compaction_fold s lo epochFix (hi + 1 - lo) (by omega)]
  rfl

theorem compactionPass_index_get (s : Snapshot) (lo hi epochFix e : Nat) (hlo : lo ≤ e)
    (hhi : e ≤ hi) (hwin : hi < QEARN_MAX_EPOCHS) :
    (compactionPass lo hi epochFix (Machine.start s))._epochIndex.get e =
      rewrittenEntry s lo e := by
  rw [compactionPass_eq s lo hi epochFix (by omega) hwin]
  simp only []
  rw [rewrittenIndex_get s lo _ e (by omega), if_pos (by omega)]

/-! ## Index contiguity -/

/-- C2 (amended).  Index contiguity is preserved: when the old ranges of two
consecutive epochs `e`, `e + 1` of the window are contiguous, the rewritten
`endIndex` of `e` equals the rewritten `startIndex` of `e + 1`. -/
theorem index_contiguity_preserved (s : Snapshot) (lo hi epochFix e : Nat)
    (hlo : lo ≤ e) (hhi : e + 1 ≤ hi) (hwin : hi < QEARN_MAX_EPOCHS)
    (hold : (s._epochIndex.get e).endIndex = (s._epochIndex.get (e + 1)).startIndex) :
    ((compactionPass lo hi epochFix (Machine.start s))._epochIndex.get e).endIndex =
      ((compactionPass lo hi epochFix (Machine.start s))._epochIndex.get (e + 1)).startIndex := by
  rw [compactionPass_index_get s lo hi epochFix e hlo (by omega) hwin,
    compactionPass_index_get s lo hi epochFix (e + 1) (by omega) hhi hwin]
  have h1 : e + 1 - lo = (e - lo) + 1 := by omega
  have h2 : lo + (e - lo) = e := by omega
  simp only [rewrittenEntry, h1, cumTombs32, h2, sub32_sub32, hold]

/-- C2 (counterexample).  On `gapSnapshot` the rewritten `endIndex` of epoch
138 is `0` while the rewritten `startIndex` of epoch 139 is `4`. -/
theorem index_contiguity_fails :
    ¬ (((compactionPass 138 173 172 (Machine.start gapSnapshot))._epochIndex.get 138).endIndex =
      ((compactionPass 138 173 172 (Machine.start gapSnapshot))._epochIndex.get 139).startIndex) := by
  rw [compactionPass_index_get _ _ _ _ _ (by decide) (by decide) (by decide),
    compactionPass_index_get _ _ _ _ _ (by decide) (by decide) (by decide)]
  decide

/-! ## The container -/

theorem array.rangeEqualsLoop_iff {T : Type} {L : Nat} [Inhabited T] [DecidableEq T]
    (a : array T L) (value : T) (n i : Nat) :
    a.rangeEqualsLoop value n i = true ↔ ∀ k, i ≤ k → k < i + n → a.read k = value := by
  induction n generalizing i with
  | zero =>
    simp only [array.rangeEqualsLoop, true_iff]
    intro k h1 h2
    omega
  | succ n ih =>
    unfold array.rangeEqualsLoop
    by_cases h : a.read i = value
    · simp only [h, not_true_eq_false, if_false, ih]
      constructor
      · intro hall k h1 h2
        by_cases hk : k = i
        · rw [hk, h]
        · exact hall k (by omega) (by omega)
      · intro hall k h1 h2
        exact hall k (by omega) (by omega)
    · simp only [h, not_false_eq_true, if_true, Bool.false_eq_true, false_iff]
      intro hall
      exact h (hall i (Nat.le_refl i) (by omega))

/-- C9.  Mask correctness: for a capacity `L = 2^n`, `get(i)` after
`set(j, v)` returns `v` when `i` and `j` are congruent modulo `L`, and returns
what `get(i)` returned before otherwise. -/
theorem mask_correctness {T : Type} [Inhabited T] (n : Nat) (a : array T (2 ^ n))
    (i j : Nat) (v : T) :
    (j % 2 ^ n = i % 2 ^ n → (a.set j v).get i = v) ∧
    (i % 2 ^ n ≠ j % 2 ^ n → (a.set j v).get i = a.get i) := by
  rw [array.get_set]
  constructor
  · intro h
    rw [if_pos h.symm]
  · intro h
    rw [if_neg h]

/-- C10.  `rangeEquals(begin, end, value)` returns `false` if `end > L` or
`begin > end`; otherwise it returns `true` exactly when every slot with index
in `[begin, end)` equals `value`. -/
theorem rangeEquals_spec {T : Type} {L : Nat} [Inhabited T] [DecidableEq T]
    (a : array T L) (indexBegin indexEnd : Nat) (value : T) :
    (indexEnd > L ∨ indexBegin > indexEnd → a.rangeEquals indexBegin indexEnd value = false) ∧
    (¬ (indexEnd > L ∨ indexBegin > indexEnd) →
      (a.rangeEquals indexBegin indexEnd value = true ↔
        ∀ i, indexBegin ≤ i → i < indexEnd → a.read i = value)) := by
  unfold array.rangeEquals
  constructor
  · intro h
    rw [if_pos h]
  · intro h
    rw [if_neg h, array.rangeEqualsLoop_iff]
    have h1 : indexBegin + (indexEnd - indexBegin) = indexEnd := by omega
    rw [h1]


/-! ## Tombstone count -/

theorem tombsAt_le (locker : array LockInfo QEARN_MAX_LOCKS) (js : List Nat) :
    tombsAt locker js ≤ js.length := by
  unfold tombsAt
  exact (List.countP_le_length _).trans (by simp)

theorem epochTombs_le (s : Snapshot) (e : Nat) :
    epochTombs s e ≤ (s._epochIndex.get e).endIndex - (s._epochIndex.get e).startIndex := by
  unfold epochTombs
  exact (tombsAt_le _ _).trans (by simp [epochSlots])

/-- C3 (amended).  For every epoch `e` of the window with 32-bit index fields,
old span minus new span equals the number of tombstones in the old range when
the differences are taken in `uint32_t` arithmetic; the equation holds over the
integers whenever `startIndex <= endIndex` and the tombstones of the earlier
epochs of the window do not exceed the old `startIndex` of `e`. -/
theorem tombstone_count (s : Snapshot) (lo hi epochFix e : Nat)
    (hlo : lo ≤ e) (hhi : e ≤ hi) (hwin : hi < QEARN_MAX_EPOCHS)
    (hs : (s._epochIndex.get e).startIndex < 2 ^ 32)
    (he : (s._epochIndex.get e).endIndex < 2 ^ 32) :
    sub32 (sub32 (s._epochIndex.get e).endIndex (s._epochIndex.get e).startIndex)
        (sub32 ((compactionPass lo hi epochFix (Machine.start s))._epochIndex.get e).endIndex
          ((compactionPass lo hi epochFix (Machine.start s))._epochIndex.get e).startIndex) =
      epochTombs s e ∧
    ((s._epochIndex.get e).startIndex ≤ (s._epochIndex.get e).endIndex →
      windowTombs s lo (e - lo) ≤ (s._epochIndex.get e).startIndex →
      (((s._epochIndex.get e).endIndex : Int) - (s._epochIndex.get e).startIndex) -
          ((((compactionPass lo hi epochFix (Machine.start s))._epochIndex.get e).endIndex : Int) -
            ((compactionPass lo hi epochFix (Machine.start s))._epochIndex.get e).startIndex) =
        epochTombs s e) := by
  rw [compactionPass_index_get s lo hi epochFix e hlo hhi hwin]
  have ht := epochTombs_le s e
  simp only [rewrittenEntry, cumTombs32_eq, inc32_zero, sub32]
  constructor
  · omega
  · intro h1 h2
    omega

/-- C3 (counterexample).  On `overlapSnapshot` epoch 139 has old span 1, no
tombstone, and the rewritten range `[4294967295, 0)`: over the integers old
span minus new span is `4294967296`, not `0`. -/
theorem tombstone_count_fails :
    ¬ ((((overlapSnapshot._epochIndex.get 139).endIndex : Int) -
          (overlapSnapshot._epochIndex.get 139).startIndex) -
        ((((compactionPass 138 173 172 (Machine.start overlapSnapshot))._epochIndex.get
              139).endIndex : Int) -
          ((compactionPass 138 173 172 (Machine.start overlapSnapshot))._epochIndex.get
              139).startIndex) =
      ((epochSlots overlapSnapshot 139).countP
        (fun j => (overlapSnapshot.locker.get j)._lockedAmount = 0) : Nat)) := by
  rw [compactionPass_index_get _ _ _ _ _ (by decide) (by decide) (by decide)]
  decide


/-! ## Round-info correction -/

theorem mainPass_eq (s : Snapshot) : mainPass s = repairPass 138 173 172 s := rfl

theorem array.get_set_pow {T : Type} [Inhabited T] {L : Nat} (n : Nat) (hL : L = 2 ^ n)
    (a : array T L) (i j : Nat) (v : T) :
    (a.set j v).get i = if i % L = j % L then v else a.get i := by
  subst hL
  exact array.get_set n a i j v

theorem repairPass_current_fix (s : Snapshot) (lo hi epochFix : Nat) (hlo : lo ≤ hi)
    (hhi : hi < QEARN_MAX_EPOCHS) :
    (repairPass lo hi epochFix s)._currentRoundInfo.get epochFix =
      correctedRound s lo (hi + 1 - lo) epochFix := by
  rw [repairPass_eq s lo hi epochFix hlo hhi]
  simp only []
  rw [array.get_set_pow 12 epochs_pow, if_pos rfl]

theorem fixTotal_eq (s : Snapshot) (lo hi epochFix : Nat) (hlo : lo ≤ epochFix)
    (hfix : epochFix ≤ hi) :
    fixTotal s lo (hi + 1 - lo) epochFix = amountSum (epochLive s epochFix) % 2 ^ 64 := by
  unfold fixTotal
  rw [if_pos (by omega), sum64_eq 0 _ (by decide), Nat.zero_add]

/-- C4 (amended).  When the live lock total of `epochFix` does not exceed the
64-bit bonus amount stored for `epochFix` before the correction, then after
the correction `totalLockedAmount` of `epochFix` is that live total and
`totalLockedAmount + epochBonusAmount` is the bonus amount held before. -/
theorem round_info_correction (s : Snapshot) (lo hi epochFix : Nat)
    (hlo : lo ≤ epochFix) (hfix : epochFix ≤ hi) (hwin : hi < QEARN_MAX_EPOCHS)
    (hb : (s._currentRoundInfo.get epochFix)._epochBonusAmount < 2 ^ 64)
    (hle : amountSum (epochLive s epochFix) ≤
      (s._currentRoundInfo.get epochFix)._epochBonusAmount) :
    ((repairPass lo hi epochFix s)._currentRoundInfo.get epochFix)._totalLockedAmount =
        amountSum (epochLive s epochFix) ∧
    ((repairPass lo hi epochFix s)._currentRoundInfo.get epochFix)._totalLockedAmount +
        ((repairPass lo hi epochFix s)._currentRoundInfo.get epochFix)._epochBonusAmount =
      (s._currentRoundInfo.get epochFix)._epochBonusAmount := by
  rw [repairPass_current_fix s lo hi epochFix (by omega) hwin]
  simp only [correctedRound, fixTotal_eq s lo hi epochFix hlo hfix, sub64]
  constructor <;> omega

/-- C4 (counterexample).  On `overdrawnSnapshot` the live total of epoch 172 is
8 and the bonus amount is 5: after the correction the two fields add up to
`2^64 + 5`, not to 5. -/
theorem round_info_correction_fails :
    ¬ (((mainPass overdrawnSnapshot)._currentRoundInfo.get 172)._totalLockedAmount +
        ((mainPass overdrawnSnapshot)._currentRoundInfo.get 172)._epochBonusAmount =
      (overdrawnSnapshot._currentRoundInfo.get 172)._epochBonusAmount) := by
  rw [mainPass_eq, repairPass_current_fix _ _ _ _ (by decide) (by decide)]
  decide

/-! ## Underflow -/

/-- C7 (amended).  Underflow is not flagged: whenever the files can be read
and written, `main` exits with status 0 and writes the state of the pass, in
which the bonus amount of epoch 172 is the old bonus amount minus the live
total modulo `2^64` and the index bounds of every epoch of the window are the
old bounds minus the tombstone counts modulo `2^32`. -/
theorem underflow_wraps (s : Snapshot) :
    main (some s) true true = (0, some (mainPass s)) ∧
    ((mainPass s)._currentRoundInfo.get 172)._epochBonusAmount =
      ((s._currentRoundInfo.get 172)._epochBonusAmount +
        (2 ^ 64 - amountSum (epochLive s 172) % 2 ^ 64)) % 2 ^ 64 ∧
    ∀ e, 138 ≤ e → e ≤ 173 →
      ((mainPass s)._epochIndex.get e).startIndex =
        ((s._epochIndex.get e).startIndex +
          (2 ^ 32 - windowTombs s 138 (e - 138) % 2 ^ 32)) % 2 ^ 32 ∧
      ((mainPass s)._epochIndex.get e).endIndex =
        ((s._epochIndex.get e).endIndex +
          (2 ^ 32 - (windowTombs s 138 (e - 138) + epochTombs s e) % 2 ^ 32)) % 2 ^ 32 := by
  refine ⟨rfl, ?_, ?_⟩
  · rw [mainPass_eq, repairPass_current_fix _ _ _ _ (by decide) (by decide)]
    simp only [correctedRound, fixTotal_eq s 138 173 172 (by decide) (by decide), sub64]
    omega
  · intro e h1 h2
    rw [mainPass_eq, repairPass_eq _ _ _ _ (by decide) (by decide)]
    simp only []
    rw [rewrittenIndex_get _ _ _ _ (by unfold QEARN_MAX_EPOCHS; omega), if_pos (by omega)]
    simp only [rewrittenEntry, cumTombs32_eq, inc32_zero, sub32]
    constructor <;> omega

/-- C7 (counterexample).  On `overdrawnSnapshot` the live total 8 of epoch 172
exceeds the bonus amount 5, yet `main` exits with status 0 and writes a state
whose bonus amount for epoch 172 is the wrapped value `2^64 - 3`. -/
theorem underflow_not_flagged :
    amountSum (epochLive overdrawnSnapshot 172) >
        (overdrawnSnapshot._currentRoundInfo.get 172)._epochBonusAmount ∧
    main (some overdrawnSnapshot) true true = (0, some (mainPass overdrawnSnapshot)) ∧
    ((mainPass overdrawnSnapshot)._currentRoundInfo.get 172)._epochBonusAmount =
      2 ^ 64 - 3 := by
  refine ⟨by decide, rfl, ?_⟩
  rw [mainPass_eq, repairPass_current_fix _ _ _ _ (by decide) (by decide)]
  decide

/-! ## Reading the lock table after the pass -/

theorem array.get_of_lt {T : Type} [Inhabited T] {L : Nat} (n : Nat) (hL : L = 2 ^ n)
    (a : array T L) (k : Nat) (hk : k < L) : a.get k = a._values ⟨k, hk⟩ := by
  unfold array.get
  rw [array.mask_of_lt n hL k hk]
  unfold array.read
  rw [dif_pos hk]

theorem materializedLocker_get (locker newLocker : array LockInfo QEARN_MAX_LOCKS)
    (cnt n k : Nat) (hk : k < QEARN_MAX_LOCKS) :
    (materializedLocker locker newLocker cnt n).get k =
      if k < n then (if k < cnt then newLocker.get k else zeroLock) else locker.get k := by
  rw [array.get_of_lt 22 locks_pow _ k hk, array.get_of_lt 22 locks_pow _ k hk,
    array.get_of_lt 22 locks_pow _ k hk]
  rfl

theorem writeSeq_get (buf : array LockInfo QEARN_MAX_LOCKS) (c : Nat) (rs : List LockInfo)
    (k : Nat) (hc : c + rs.length ≤ QEARN_MAX_LOCKS) (hk : k < QEARN_MAX_LOCKS) :
    (writeSeq buf c rs).get k =
      if c ≤ k ∧ k < c + rs.length then rs.getD (k - c) default else buf.get k := by
  induction rs generalizing buf c with
  | nil =>
    have h : ¬ (c ≤ k ∧ k < c + ([] : List LockInfo).length) := by
      simp only [List.length_nil]
      omega
    rw [if_neg h, writeSeq]
  | cons r rs ih =>
    simp only [List.length_cons] at hc
    have hL : QEARN_MAX_LOCKS = 4194304 := rfl
    have hadd : add32 c 1 = c + 1 := by
      unfold add32
      omega
    rw [writeSeq, hadd, ih _ _ (by omega), array.get_set_pow 22 locks_pow]
    rw [Nat.mod_eq_of_lt hk, Nat.mod_eq_of_lt (by omega : c < QEARN_MAX_LOCKS)]
    simp only [List.length_cons]
    by_cases h1 : k = c
    · subst h1
      have h2 : ¬ (k + 1 ≤ k ∧ k < k + 1 + rs.length) := by omega
      have h3 : k ≤ k ∧ k < k + (rs.length + 1) := by omega
      simp [h2, h3]
    · by_cases h2 : c + 1 ≤ k ∧ k < c + 1 + rs.length
      · have h3 : c ≤ k ∧ k < c + (rs.length + 1) := by omega
        have h4 : k - c = (k - (c + 1)) + 1 := by omega
        rw [if_pos h2, if_pos h3, h4, List.getD_cons_succ]
      · have h3 : ¬ (c ≤ k ∧ k < c + (rs.length + 1)) := by omega
        rw [if_neg h2, if_neg h3, if_neg h1]

theorem repairPass_locker_get (s : Snapshot) (lo hi epochFix k : Nat) (hlo : lo ≤ hi)
    (hhi : hi < QEARN_MAX_EPOCHS) (hk : k < QEARN_MAX_LOCKS)
    (hn : (windowLive s lo (hi + 1 - lo)).length ≤ QEARN_MAX_LOCKS) :
    (repairPass lo hi epochFix s).locker.get k =
      if k < QEARN_MAX_USERS then
        (if k < (windowLive s lo (hi + 1 - lo)).length then
          (windowLive s lo (hi + 1 - lo)).getD k default
        else zeroLock)
      else s.locker.get k := by
  rw [repairPass_eq s lo hi epochFix hlo hhi]
  simp only []
  have hL : QEARN_MAX_LOCKS = 4194304 := rfl
  have hinc : inc32 0 (windowLive s lo (hi + 1 - lo)).length =
      (windowLive s lo (hi + 1 - lo)).length := by
    rw [inc32_zero]
    omega
  rw [materializedLocker_get _ _ _ _ _ hk, hinc, writeSeq_get _ _ _ _ (by omega) hk]
  by_cases h1 : k < QEARN_MAX_USERS
  · by_cases h2 : k < (windowLive s lo (hi + 1 - lo)).length
    · have h3 : 0 ≤ k ∧ k < 0 + (windowLive s lo (hi + 1 - lo)).length := by omega
      rw [if_pos h1, if_pos h1, if_pos h2, if_pos h2, if_pos h3, Nat.sub_zero]
    · rw [if_pos h1, if_pos h1, if_neg h2, if_neg h2]
  · rw [if_neg h1, if_neg h1]

/-! ## The scenario -/

theorem repairPass_index_get (s : Snapshot) (lo hi epochFix e : Nat) (hlo : lo ≤ e)
    (hhi : e ≤ hi) (hwin : hi < QEARN_MAX_EPOCHS) :
    (repairPass lo hi epochFix s)._epochIndex.get e = rewrittenEntry s lo e := by
  rw [repairPass_eq s lo hi epochFix (by omega) hwin]
  simp only []
  rw [rewrittenIndex_get s lo _ e (by omega), if_pos (by omega)]

theorem liveAt_nil (locker : array LockInfo QEARN_MAX_LOCKS) : liveAt locker [] = [] := rfl

theorem tombsAt_nil (locker : array LockInfo QEARN_MAX_LOCKS) : tombsAt locker [] = 0 := rfl

theorem scenario_live (s : Snapshot)
    (h0 : s._epochIndex.get 0 = ⟨0, 4⟩) (h1 : s._epochIndex.get 1 = ⟨4, 6⟩)
    (a0 : (s.locker.get 0)._lockedAmount = 5) (a1 : (s.locker.get 1)._lockedAmount = 0)
    (a2 : (s.locker.get 2)._lockedAmount = 3) (a3 : (s.locker.get 3)._lockedAmount = 0)
    (a4 : (s.locker.get 4)._lockedAmount = 7) (a5 : (s.locker.get 5)._lockedAmount = 2) :
    epochLive s 0 = [s.locker.get 0, s.locker.get 2] ∧
    epochLive s 1 = [s.locker.get 4, s.locker.get 5] ∧
    epochTombs s 0 = 2 ∧ epochTombs s 1 = 0 := by
  have e0 : epochSlots s 0 = [0, 1, 2, 3] := by
    unfold epochSlots
    rw [h0]
    rfl
  have e1 : epochSlots s 1 = [4, 5] := by
    unfold epochSlots
    rw [h1]
    rfl
  unfold epochLive epochTombs
  rw [e0, e1]
  simp only [liveAt_cons, tombsAt_cons, liveAt_nil, tombsAt_nil, a0, a1, a2, a3, a4, a5]
  simp

/-- The scenario for the pass taken with the parameters window `[0, 1]` and
`epochFix = 0` (the program itself fixes `138 .. 173` and `172`): on a
snapshot where epoch 0 owns `[0, 4)` with amounts `5, 0, 3, 0`, epoch 1 owns
`[4, 6)` with amounts `7, 2` and the bonus amount of epoch 0 is 20, this pass
yields index `[0, 2)` for epoch 0, `[2, 4)` for epoch 1, amounts `5, 3, 7, 2`
in the slots `0 .. 3` and the round info `{8, 12}` for epoch 0. -/
theorem scenario (s : Snapshot)
    (h0 : s._epochIndex.get 0 = ⟨0, 4⟩) (h1 : s._epochIndex.get 1 = ⟨4, 6⟩)
    (a0 : (s.locker.get 0)._lockedAmount = 5) (a1 : (s.locker.get 1)._lockedAmount = 0)
    (a2 : (s.locker.get 2)._lockedAmount = 3) (a3 : (s.locker.get 3)._lockedAmount = 0)
    (a4 : (s.locker.get 4)._lockedAmount = 7) (a5 : (s.locker.get 5)._lockedAmount = 2)
    (hb : (s._currentRoundInfo.get 0)._epochBonusAmount = 20) :
    (repairPass 0 1 0 s)._epochIndex.get 0 = ⟨0, 2⟩ ∧
    (repairPass 0 1 0 s)._epochIndex.get 1 = ⟨2, 4⟩ ∧
    ((repairPass 0 1 0 s).locker.get 0)._lockedAmount = 5 ∧
    ((repairPass 0 1 0 s).locker.get 1)._lockedAmount = 3 ∧
    ((repairPass 0 1 0 s).locker.get 2)._lockedAmount = 7 ∧
    ((repairPass 0 1 0 s).locker.get 3)._lockedAmount = 2 ∧
    (repairPass 0 1 0 s)._currentRoundInfo.get 0 = ⟨8, 12⟩ := by
  obtain ⟨l0, l1, t0, t1⟩ := scenario_live s h0 h1 a0 a1 a2 a3 a4 a5
  have hw : windowLive s 0 (1 + 1 - 0) =
      [s.locker.get 0, s.locker.get 2, s.locker.get 4, s.locker.get 5] := by
    show windowLive s 0 2 = _
    simp [windowLive, l0, l1]
  have hlen : (windowLive s 0 (1 + 1 - 0)).length ≤ QEARN_MAX_LOCKS := by
    rw [hw]
    simp [QEARN_MAX_LOCKS]
  have hk : ∀ k, k < 4 →
      (repairPass 0 1 0 s).locker.get k =
        [s.locker.get 0, s.locker.get 2, s.locker.get 4, s.locker.get 5].getD k default := by
    intro k hk
    have hL : QEARN_MAX_LOCKS = 4194304 := rfl
    have hU : QEARN_MAX_USERS = 131072 := rfl
    rw [repairPass_locker_get s 0 1 0 k (by decide) (by decide) (by omega) hlen, hw,
      if_pos (by omega), if_pos (by simpa using hk)]
  refine ⟨?_, ?_, ?_, ?_, ?_, ?_, ?_⟩
  · rw [repairPass_index_get s 0 1 0 0 (by decide) (by decide) (by decide)]
    simp only [rewrittenEntry, h0, t0, cumTombs32]
    decide
  · rw [repairPass_index_get s 0 1 0 1 (by decide) (by decide) (by decide)]
    simp only [rewrittenEntry, h1, t0, t1, cumTombs32, Nat.add_zero]
    decide
  · rw [hk 0 (by decide)]
    simpa using a0
  · rw [hk 1 (by decide)]
    simpa using a2
  · rw [hk 2 (by decide)]
    simpa using a4
  · rw [hk 3 (by decide)]
    simpa using a5
  · rw [repairPass_current_fix s 0 1 0 (by decide) (by decide)]
    have hs : amountSum (epochLive s 0) = 8 := by
      simp [l0, amountSum, a0, a2]
    simp only [correctedRound, fixTotal_eq s 0 1 0 (by decide) (by decide), hs, hb]
    decide

/-- The scenario for the parameters window `[0, 1]` and `epochFix = 0` on
`scenarioSnapshot`. -/
theorem scenario_witness :
    (repairPass 0 1 0 scenarioSnapshot)._epochIndex.get 0 = ⟨0, 2⟩ ∧
    (repairPass 0 1 0 scenarioSnapshot)._epochIndex.get 1 = ⟨2, 4⟩ ∧
    ((repairPass 0 1 0 scenarioSnapshot).locker.get 0)._lockedAmount = 5 ∧
    ((repairPass 0 1 0 scenarioSnapshot).locker.get 1)._lockedAmount = 3 ∧
    ((repairPass 0 1 0 scenarioSnapshot).locker.get 2)._lockedAmount = 7 ∧
    ((repairPass 0 1 0 scenarioSnapshot).locker.get 3)._lockedAmount = 2 ∧
    (repairPass 0 1 0 scenarioSnapshot)._currentRoundInfo.get 0 = ⟨8, 12⟩ :=
  scenario scenarioSnapshot (by decide) (by decide) (by decide) (by decide) (by decide)
    (by decide) (by decide) (by decide) (by decide)

/-! ## Materialised table -/

theorem repairPass_locker_zero (s : Snapshot) (lo hi epochFix k : Nat) (hlo : lo ≤ hi)
    (hhi : hi < QEARN_MAX_EPOCHS) (hn : (windowLive s lo (hi + 1 - lo)).length ≤ k)
    (hk : k < QEARN_MAX_USERS) :
    (repairPass lo hi epochFix s).locker.get k = zeroLock := by
  rw [repairPass_eq s lo hi epochFix hlo hhi]
  simp only []
  have hU : QEARN_MAX_USERS = 131072 := rfl
  have hL : QEARN_MAX_LOCKS = 4194304 := rfl
  have hinc : ¬ k < inc32 0 (windowLive s lo (hi + 1 - lo)).length := by
    rw [inc32_zero]
    omega
  rw [materializedLocker_get _ _ _ _ _ (by omega), if_pos hk, if_neg hinc]

/-- C6 (amended).  With `n` the number of live records the pass collects from
the window: when `n` is at most `QEARN_MAX_LOCKS`, lock-table slot `k` holds
the `k`-th collected record for every `k < n` below `QEARN_MAX_USERS`; and
every slot `k` with `n <= k < QEARN_MAX_USERS` holds the zero record. -/
theorem materialized_table (s : Snapshot) (lo hi epochFix : Nat) (hlo : lo ≤ hi)
    (hhi : hi < QEARN_MAX_EPOCHS) :
    ((windowLive s lo (hi + 1 - lo)).length ≤ QEARN_MAX_LOCKS →
      ∀ k, k < (windowLive s lo (hi + 1 - lo)).length → k < QEARN_MAX_USERS →
        (repairPass lo hi epochFix s).locker.get k =
          (windowLive s lo (hi + 1 - lo)).getD k default) ∧
    (∀ k, (windowLive s lo (hi + 1 - lo)).length ≤ k → k < QEARN_MAX_USERS →
      (repairPass lo hi epochFix s).locker.get k = zeroLock) := by
  constructor
  · intro hn k h1 h2
    have hU : QEARN_MAX_USERS = 131072 := rfl
    have hL : QEARN_MAX_LOCKS = 4194304 := rfl
    rw [repairPass_locker_get s lo hi epochFix k hlo hhi (by omega) hn, if_pos h2, if_pos h1]
  · intro k h1 h2
    exact repairPass_locker_zero s lo hi epochFix k hlo hhi h1 h2

theorem liveAt_all_live (locker : array LockInfo QEARN_MAX_LOCKS) (js : List Nat)
    (h : ∀ j, j ∈ js → (locker.get j)._lockedAmount ≠ 0) :
    liveAt locker js = js.map locker.get := by
  induction js with
  | nil => rfl
  | cons j js ih =>
    rw [liveAt_cons, if_neg (h j (List.mem_cons_self j js)),
      ih (fun i hi => h i (List.mem_cons_of_mem j hi)), List.map_cons]

theorem windowLive_first (s : Snapshot) (lo k : Nat)
    (h : ∀ e, lo < e → e < lo + (k + 1) → epochLive s e = []) :
    windowLive s lo (k + 1) = epochLive s lo := by
  induction k with
  | zero => simp [windowLive]
  | succ k ih =>
    rw [windowLive, ih (fun e h1 h2 => h e h1 (by omega)), h (lo + (k + 1)) (by omega) (by omega),
      List.append_nil]

theorem crowded_get (j : Nat) : crowdedSnapshot.locker.get j = ⟨j % 4194304, 0, 0⟩ := by
  have h : j % QEARN_MAX_LOCKS < QEARN_MAX_LOCKS := Nat.mod_lt _ (by decide)
  unfold array.get
  have hm : j &&& (QEARN_MAX_LOCKS - 1) = j % QEARN_MAX_LOCKS := array.mask_eq_mod 22 j
  rw [hm]
  unfold array.read
  rw [dif_pos h]
  rfl

theorem crowded_epochLive_other (e : Nat) (h1 : 138 < e) (h2 : e < 138 + (35 + 1)) :
    epochLive crowdedSnapshot e = [] := by
  have he : e < QEARN_MAX_EPOCHS := by
    unfold QEARN_MAX_EPOCHS
    omega
  have hidx : crowdedSnapshot._epochIndex.get e = ⟨131074, 131074⟩ := by
    rw [array.get_of_lt 12 epochs_pow _ e he]
    have hne : e ≠ 138 := by omega
    have hge : ¬ e < 138 := by omega
    simp [crowdedSnapshot, hne, hge]
  unfold epochLive epochSlots
  rw [hidx]
  rfl

theorem crowded_windowLive :
    windowLive crowdedSnapshot 138 36 =
      (List.range' 1 131073).map crowdedSnapshot.locker.get := by
  show windowLive crowdedSnapshot 138 (35 + 1) = _
  rw [windowLive_first _ _ _ crowded_epochLive_other]
  have hs : epochSlots crowdedSnapshot 138 = 0 :: List.range' 1 131073 := by
    unfold epochSlots
    have hidx : crowdedSnapshot._epochIndex.get 138 = ⟨0, 131074⟩ := by decide
    rw [hidx]
    exact List.range'_succ 0 131073 1
  unfold epochLive
  rw [hs, liveAt_cons, if_pos (by decide), liveAt_all_live]
  intro j hj
  rw [List.mem_range'_1] at hj
  rw [crowded_get]
  show j % 4194304 ≠ 0
  omega

/-- C6 (counterexample).  On `crowdedSnapshot` the pass collects 131073 live
records; the record number 131072 of that sequence is the old record of slot
131073, while slot 131072 of the lock table still holds its old record. -/
theorem materialized_table_fails :
    131072 < (windowLive crowdedSnapshot 138 36).length ∧
    (mainPass crowdedSnapshot).locker.get 131072 ≠
      (windowLive crowdedSnapshot 138 36).getD 131072 default := by
  have hlen : (windowLive crowdedSnapshot 138 36).length = 131073 := by
    rw [crowded_windowLive, List.length_map, List.length_range']
  have hlen2 : (windowLive crowdedSnapshot 138 (173 + 1 - 138)).length ≤ QEARN_MAX_LOCKS := by
    show (windowLive crowdedSnapshot 138 36).length ≤ QEARN_MAX_LOCKS
    rw [hlen]
    decide
  constructor
  · rw [hlen]
    decide
  · rw [mainPass_eq, repairPass_locker_get _ _ _ _ _ (by decide) (by decide) (by decide) hlen2]
    rw [if_neg (by decide), crowded_windowLive, List.getD_eq_getElem?_getD, List.getElem?_map,
      List.getElem?_range' _ _ (by decide)]
    simp only [Option.map_some', Option.getD_some, crowded_get]
    decide

/-! ## Compaction preserves the live records -/

theorem live_add_tombs (locker : array LockInfo QEARN_MAX_LOCKS) (js : List Nat) :
    (liveAt locker js).length + tombsAt locker js = js.length := by
  induction js with
  | nil => rfl
  | cons j js ih =>
    rw [liveAt_cons, tombsAt_cons]
    by_cases h : (locker.get j)._lockedAmount = 0
    · rw [if_pos h, if_pos h, List.length_cons]
      omega
    · rw [if_neg h, if_neg h, List.length_cons, List.length_cons]
      omega

theorem epoch_live_add_tombs (s : Snapshot) (e : Nat) :
    (epochLive s e).length + epochTombs s e =
      (s._epochIndex.get e).endIndex - (s._epochIndex.get e).startIndex := by
  unfold epochLive epochTombs
  rw [live_add_tombs]
  simp [epochSlots]

/-- Live records plus tombstones of the first `k` epochs fill the slots below
the start of epoch `lo + k`. -/
theorem window_fill (s : Snapshot) (lo hi : Nat) (hw : WindowOk s lo hi) (k : Nat)
    (hk : lo + k ≤ hi) :
    (windowLive s lo k).length + windowTombs s lo k = (s._epochIndex.get (lo + k)).startIndex := by
  induction k with
  | zero => simp [windowLive, windowTombs, hw.first]
  | succ k ih =>
    have h1 := ih (by omega)
    have h2 := epoch_live_add_tombs s (lo + k)
    have h3 := hw.ordered (lo + k) (by omega) (by omega)
    have h4 := hw.contiguous (lo + k) (by omega) (by omega)
    simp only [windowLive, windowTombs, List.length_append]
    rw [show lo + (k + 1) = lo + k + 1 from rfl, ← h4]
    omega

/-- The rewritten entry of epoch `lo + k` is the range of its live records in
the compacted sequence. -/
theorem rewrittenEntry_ok (s : Snapshot) (lo hi : Nat) (hw : WindowOk s lo hi) (k : Nat)
    (hk : lo + k ≤ hi) :
    rewrittenEntry s lo (lo + k) =
      ⟨(windowLive s lo k).length, (windowLive s lo (k + 1)).length⟩ := by
  have h1 := window_fill s lo hi hw k hk
  have h2 := epoch_live_add_tombs s (lo + k)
  have h3 := hw.ordered (lo + k) (by omega) hk
  have h5 := hw.bounded (lo + k) (by omega) hk
  simp only [rewrittenEntry, Nat.add_sub_cancel_left, cumTombs32_eq, inc32_zero, sub32,
    windowLive, List.length_append]
  congr 1 <;> omega

theorem windowLive_split (s : Snapshot) (lo k n : Nat) (h : k ≤ n) :
    ∃ rest, windowLive s lo n = windowLive s lo k ++ rest := by
  induction n with
  | zero =>
    have : k = 0 := by omega
    subst this
    exact ⟨[], by simp⟩
  | succ n ih =>
    by_cases hk : k = n + 1
    · subst hk
      exact ⟨[], by simp⟩
    · obtain ⟨rest, hr⟩ := ih (by omega)
      exact ⟨rest ++ epochLive s (lo + n), by rw [windowLive, hr, List.append_assoc]⟩

theorem windowLive_length_mono (s : Snapshot) (lo k n : Nat) (h : k ≤ n) :
    (windowLive s lo k).length ≤ (windowLive s lo n).length := by
  obtain ⟨rest, hr⟩ := windowLive_split s lo k n h
  rw [hr, List.length_append]
  omega

/-- After the pass, the slots of the rewritten range of epoch `lo + k` hold
the live records of the old range of that epoch. -/
theorem rewritten_range_holds_live (s : Snapshot) (lo hi epochFix : Nat)
    (hw : WindowOk s lo hi) (k : Nat) (hk : lo + k ≤ hi) :
    (epochSlots (repairPass lo hi epochFix s) (lo + k)).map
        (repairPass lo hi epochFix s).locker.get =
      epochLive s (lo + k) := by
  have hU : QEARN_MAX_USERS = 131072 := rfl
  have hL : QEARN_MAX_LOCKS = 4194304 := rfl
  have hfit := hw.fits
  have hmono := windowLive_length_mono s lo (k + 1) (hi + 1 - lo) (by omega)
  obtain ⟨rest, hr⟩ := windowLive_split s lo (k + 1) (hi + 1 - lo) (by omega)
  unfold epochSlots
  rw [repairPass_index_get s lo hi epochFix (lo + k) (by omega) hk hw.window.2,
    rewrittenEntry_ok s lo hi hw k hk]
  simp only [windowLive, List.length_append, Nat.add_sub_cancel_left]
  simp only [windowLive, List.length_append] at hmono
  apply List.ext_getElem
  · simp
  · intro t h1 h2
    simp only [List.length_map, List.length_range'] at h1
    simp only [List.getElem_map, List.getElem_range', Nat.one_mul]
    rw [repairPass_locker_get s lo hi epochFix _ hw.window.1 hw.window.2 (by omega) (by omega),
      if_pos (by omega), if_pos (by omega), hr, windowLive, List.getD_eq_getElem?_getD,
      List.getElem?_append_left (by simp only [List.length_append]; omega),
      List.getElem?_append_right (by omega), Nat.add_sub_cancel_left,
      List.getElem?_eq_getElem h2, Option.getD_some]

theorem windowScan_eq_windowLive (s : Snapshot) (lo hi epochFix : Nat)
    (hw : WindowOk s lo hi) (k : Nat) (hk : lo + k ≤ hi + 1) :
    windowScan (repairPass lo hi epochFix s) lo k = windowLive s lo k := by
  induction k with
  | zero => rfl
  | succ k ih =>
    rw [windowScan, windowLive, ih (by omega),
      rewritten_range_holds_live s lo hi epochFix hw k (by omega)]

/-- C1 (amended).  Compaction preserves live records on a well-formed window
(`WindowOk`): the live records found by scanning the old index ranges of the
window in ascending epoch order are, in the same order, the records found in
the lock table after the pass by scanning the rewritten ranges. -/
theorem compaction_preserves_live (s : Snapshot) (lo hi epochFix : Nat)
    (hw : WindowOk s lo hi) :
    windowLive s lo (hi + 1 - lo) =
      windowScan (repairPass lo hi epochFix s) lo (hi + 1 - lo) := by
  have h := hw.window.1
  rw [windowScan_eq_windowLive s lo hi epochFix hw _ (by omega)]

/-- C1 (counterexample).  On `shiftedSnapshot` the old range `[1, 2)` of epoch
138 holds one live record; the pass moves it to slot 0 but leaves the index
entry at `[1, 2)`, where the lock table now holds the zero record. -/
theorem compaction_preserves_live_fails :
    windowLive shiftedSnapshot 138 36 ≠ windowScan (mainPass shiftedSnapshot) 138 36 := by
  rw [mainPass_eq, repairPass_eq _ _ _ _ (by decide) (by decide)]
  decide

/-! ## A second application of the pass -/

theorem liveAt_filter (locker : array LockInfo QEARN_MAX_LOCKS) (js : List Nat) :
    (liveAt locker js).filter isLive = liveAt locker js := by
  unfold liveAt
  rw [List.filter_filter]
  simp

theorem countP_dead_liveAt (locker : array LockInfo QEARN_MAX_LOCKS) (js : List Nat) :
    (liveAt locker js).countP (fun r => !isLive r) = 0 := by
  unfold liveAt
  rw [List.countP_eq_zero]
  intro r hr
  have := (List.mem_filter.mp hr).2
  simp [this]

/-- After the pass every epoch of the window has the same live records as before. -/
theorem second_epochLive (s : Snapshot) (lo hi epochFix : Nat) (hw : WindowOk s lo hi)
    (k : Nat) (hk : lo + k ≤ hi) :
    epochLive (repairPass lo hi epochFix s) (lo + k) = epochLive s (lo + k) := by
  have h := rewritten_range_holds_live s lo hi epochFix hw k hk
  show liveAt _ _ = _
  unfold liveAt
  rw [h]
  exact liveAt_filter _ _

/-- After the pass no epoch of the window has a tombstone. -/
theorem second_epochTombs (s : Snapshot) (lo hi epochFix : Nat) (hw : WindowOk s lo hi)
    (k : Nat) (hk : lo + k ≤ hi) :
    epochTombs (repairPass lo hi epochFix s) (lo + k) = 0 := by
  have h := rewritten_range_holds_live s lo hi epochFix hw k hk
  show tombsAt _ _ = _
  unfold tombsAt
  rw [h]
  exact countP_dead_liveAt _ _

theorem second_windowLive (s : Snapshot) (lo hi epochFix : Nat) (hw : WindowOk s lo hi)
    (k : Nat) (hk : lo + k ≤ hi + 1) :
    windowLive (repairPass lo hi epochFix s) lo k = windowLive s lo k := by
  induction k with
  | zero => rfl
  | succ k ih =>
    rw [windowLive, windowLive, ih (by omega), second_epochLive s lo hi epochFix hw k (by omega)]

theorem second_windowTombs (s : Snapshot) (lo hi epochFix : Nat) (hw : WindowOk s lo hi)
    (k : Nat) (hk : lo + k ≤ hi + 1) :
    windowTombs (repairPass lo hi epochFix s) lo k = 0 := by
  induction k with
  | zero => rfl
  | succ k ih =>
    rw [windowTombs, ih (by omega), second_epochTombs s lo hi epochFix hw k (by omega)]

theorem rewrittenEntry_fixed (t : Snapshot) (lo k a b : Nat)
    (hidx : t._epochIndex.get (lo + k) = ⟨a, b⟩) (hT : windowTombs t lo k = 0)
    (hE : epochTombs t (lo + k) = 0) (ha : a < 2 ^ 32) (hb : b < 2 ^ 32) :
    rewrittenEntry t lo (lo + k) = t._epochIndex.get (lo + k) := by
  simp only [rewrittenEntry, Nat.add_sub_cancel_left, cumTombs32_eq, inc32_zero, hT, hE, hidx,
    sub32, EpochIndexInfo.mk.injEq]
  constructor <;> omega


theorem rewrittenIndex_fixed (t : Snapshot) (lo K : Nat)
    (h : ∀ k, lo + k < lo + K → lo + k < QEARN_MAX_EPOCHS →
      rewrittenEntry t lo (lo + k) = t._epochIndex.get (lo + k)) :
    rewrittenIndex t lo K = t._epochIndex := by
  apply array.ext_values
  intro p
  have hp : t._epochIndex._values p = t._epochIndex.get p.val :=
    (array.get_of_lt 12 epochs_pow _ p.val p.isLt).symm
  simp only [rewrittenIndex]
  by_cases hin : lo ≤ p.val ∧ p.val < lo + K
  · rw [if_pos hin, hp]
    obtain ⟨k, hk⟩ : ∃ k, p.val = lo + k := ⟨p.val - lo, by omega⟩
    have hlt := p.isLt
    rw [hk] at hlt hin ⊢
    exact h k hin.2 hlt
  · rw [if_neg hin]

theorem second_index (s : Snapshot) (lo hi epochFix : Nat) (hw : WindowOk s lo hi) :
    rewrittenIndex (repairPass lo hi epochFix s) lo (hi + 1 - lo) =
      (repairPass lo hi epochFix s)._epochIndex := by
  have hU : QEARN_MAX_USERS = 131072 := rfl
  have hwin := hw.window
  have hfit := hw.fits
  apply rewrittenIndex_fixed
  intro k hk1 hk3
  have hk2 : lo + k ≤ hi := by omega
  have hidx := repairPass_index_get s lo hi epochFix (lo + k) (by omega) hk2 hwin.2
  rw [rewrittenEntry_ok s lo hi hw k hk2] at hidx
  have hm1 := windowLive_length_mono s lo k (hi + 1 - lo) (by omega)
  have hm2 := windowLive_length_mono s lo (k + 1) (hi + 1 - lo) (by omega)
  exact rewrittenEntry_fixed _ lo k _ _ hidx
    (second_windowTombs s lo hi epochFix hw k (by omega))
    (second_epochTombs s lo hi epochFix hw k hk2) (by omega) (by omega)

theorem materializedLocker_idem (locker newLocker : array LockInfo QEARN_MAX_LOCKS)
    (cnt n : Nat) :
    materializedLocker (materializedLocker locker newLocker cnt n) newLocker cnt n =
      materializedLocker locker newLocker cnt n := by
  apply array.ext_values
  intro p
  by_cases h : p.val < n <;> simp [materializedLocker, h]

theorem second_fixTotal (s : Snapshot) (lo hi epochFix : Nat) (hw : WindowOk s lo hi)
    (hlo : lo ≤ epochFix) (hfix : epochFix ≤ hi) :
    fixTotal (repairPass lo hi epochFix s) lo (hi + 1 - lo) epochFix =
      fixTotal s lo (hi + 1 - lo) epochFix := by
  have h := second_epochLive s lo hi epochFix hw (epochFix - lo) (by omega)
  rw [show lo + (epochFix - lo) = epochFix by omega] at h
  unfold fixTotal
  rw [h]

/-- The second application of the pass. -/
theorem second_pass (s : Snapshot) (lo hi epochFix : Nat) (hw : WindowOk s lo hi)
    (hlo : lo ≤ epochFix) (hfix : epochFix ≤ hi) :
    repairPass lo hi epochFix (repairPass lo hi epochFix s) =
      { repairPass lo hi epochFix s with
          _initialRoundInfo := (repairPass lo hi epochFix s)._initialRoundInfo.set epochFix
            (secondRound s epochFix)
          _currentRoundInfo := (repairPass lo hi epochFix s)._currentRoundInfo.set epochFix
            (secondRound s epochFix) } := by
  have hwin := hw.window
  have hr : correctedRound (repairPass lo hi epochFix s) lo (hi + 1 - lo) epochFix =
      secondRound s epochFix := by
    unfold correctedRound secondRound
    rw [second_fixTotal s lo hi epochFix hw hlo hfix,
      repairPass_current_fix s lo hi epochFix hwin.1 hwin.2]
    simp only [correctedRound, fixTotal_eq s lo hi epochFix hlo hfix, sub64]
    congr 1
    omega
  have hl : materializedLocker (repairPass lo hi epochFix s).locker
      (writeSeq ⟨fun _ => zeroLock⟩ 0
        (windowLive (repairPass lo hi epochFix s) lo (hi + 1 - lo)))
      (inc32 0 (windowLive (repairPass lo hi epochFix s) lo (hi + 1 - lo)).length)
      QEARN_MAX_USERS = (repairPass lo hi epochFix s).locker := by
    rw [second_windowLive s lo hi epochFix hw _ (by omega)]
    rw [repairPass_eq s lo hi epochFix hwin.1 hwin.2]
    exact materializedLocker_idem _ _ _ _
  rw [repairPass_eq (repairPass lo hi epochFix s) lo hi epochFix hwin.1 hwin.2, hr, hl,
    second_index s lo hi epochFix hw]


theorem repairPass_initial_fix (s : Snapshot) (lo hi epochFix : Nat) (hlo : lo ≤ hi)
    (hhi : hi < QEARN_MAX_EPOCHS) :
    (repairPass lo hi epochFix s)._initialRoundInfo.get epochFix =
      correctedRound s lo (hi + 1 - lo) epochFix := by
  rw [repairPass_eq s lo hi epochFix hlo hhi]
  simp only []
  rw [array.get_set_pow 12 epochs_pow, if_pos rfl]

theorem array.set_get_self {T : Type} [Inhabited T] {L : Nat} (n : Nat) (hL : L = 2 ^ n)
    (a : array T L) (i : Nat) : a.set i (a.get i) = a := by
  have hlt : i &&& (L - 1) < L := by
    subst hL
    rw [array.mask_eq_mod]
    exact Nat.mod_lt _ (Nat.two_pow_pos n)
  unfold array.set array.get array.write array.read
  rw [if_pos hlt, dif_pos hlt]
  apply array.ext_values
  intro p
  by_cases hp : p.val = i &&& (L - 1)
  · have : p = ⟨i &&& (L - 1), hlt⟩ := Fin.ext hp
    simp [this]
  · simp [hp]

theorem round_fixed_iff (t : Snapshot) (epochFix : Nat) (r1 r2 : RoundInfo)
    (hini : t._initialRoundInfo.get epochFix = r1)
    (hcur : t._currentRoundInfo.get epochFix = r1) :
    ({ t with
        _initialRoundInfo := t._initialRoundInfo.set epochFix r2
        _currentRoundInfo := t._currentRoundInfo.set epochFix r2 } : Snapshot) = t ↔
      r2 = r1 := by
  constructor
  · intro h
    have h2 := congrArg (fun u : Snapshot => u._currentRoundInfo.get epochFix) h
    simp only [] at h2
    rw [array.get_set_pow 12 epochs_pow, if_pos rfl, hcur] at h2
    exact h2
  · intro h
    subst h
    rw [← hini]
    rw [hini, ← hcur, array.set_get_self 12 epochs_pow]
    rw [hcur, ← hini, array.set_get_self 12 epochs_pow]

theorem tidy_index (e : Nat) (he : e < QEARN_MAX_EPOCHS) :
    tidySnapshot._epochIndex.get e =
      if e < 171 then ⟨0, 0⟩ else if e = 171 then ⟨0, 4⟩
        else if e = 172 then ⟨4, 6⟩ else ⟨6, 6⟩ := by
  rw [array.get_of_lt 12 epochs_pow _ e he]
  rfl

theorem tidy_ok : WindowOk tidySnapshot 138 173 where
  window := by decide
  first := by decide
  ordered := by
    intro e h1 h2
    rw [tidy_index e (by unfold QEARN_MAX_EPOCHS; omega)]
    split_ifs <;> decide
  contiguous := by
    intro e h1 h2
    rw [tidy_index e (by unfold QEARN_MAX_EPOCHS; omega),
      tidy_index (e + 1) (by unfold QEARN_MAX_EPOCHS; omega)]
    split_ifs <;> first | rfl | omega
  bounded := by
    intro e h1 h2
    rw [tidy_index e (by unfold QEARN_MAX_EPOCHS; omega)]
    split_ifs <;> decide
  fits := by decide


/-! ## Idempotence and instances -/

/-- C8 (amended).  On a well-formed window (`WindowOk`) that contains
`epochFix`, a second application of the pass leaves every table as the first
application left it except the round info of `epochFix`, where it stores the
live total again and subtracts it from the bonus amount once more; so applying
the pass twice equals applying it once exactly when the live total of
`epochFix` is zero modulo `2^64`. -/
theorem second_pass_effect (s : Snapshot) (lo hi epochFix : Nat) (hw : WindowOk s lo hi)
    (hlo : lo ≤ epochFix) (hfix : epochFix ≤ hi) :
    repairPass lo hi epochFix (repairPass lo hi epochFix s) =
        { repairPass lo hi epochFix s with
            _initialRoundInfo :=
              (repairPass lo hi epochFix s)._initialRoundInfo.set epochFix
                (secondRound s epochFix)
            _currentRoundInfo :=
              (repairPass lo hi epochFix s)._currentRoundInfo.set epochFix
                (secondRound s epochFix) } ∧
    (repairPass lo hi epochFix (repairPass lo hi epochFix s) = repairPass lo hi epochFix s ↔
      amountSum (epochLive s epochFix) % 2 ^ 64 = 0) := by
  have hwin := hw.window
  refine ⟨second_pass s lo hi epochFix hw hlo hfix, ?_⟩
  rw [second_pass s lo hi epochFix hw hlo hfix,
    round_fixed_iff _ epochFix (correctedRound s lo (hi + 1 - lo) epochFix) _
      (repairPass_initial_fix s lo hi epochFix hwin.1 hwin.2)
      (repairPass_current_fix s lo hi epochFix hwin.1 hwin.2)]
  simp only [secondRound, correctedRound, fixTotal_eq s lo hi epochFix hlo hfix, sub64,
    RoundInfo.mk.injEq]
  constructor
  · intro h
    omega
  · intro h
    refine ⟨trivial, ?_⟩
    omega

/-- C8 (counterexample).  On `tidySnapshot` the first pass leaves the bonus
amount `20 - 9 = 11` for epoch 172 and the second pass leaves `11 - 9 = 2`. -/
theorem repair_not_idempotent :
    mainPass (mainPass tidySnapshot) ≠ mainPass tidySnapshot := by
  intro h
  rw [mainPass_eq, mainPass_eq, second_pass tidySnapshot 138 173 172 tidy_ok (by decide) (by decide),
    round_fixed_iff _ 172 (correctedRound tidySnapshot 138 (173 + 1 - 138) 172) _
      (repairPass_initial_fix _ _ _ _ (by decide) (by decide))
      (repairPass_current_fix _ _ _ _ (by decide) (by decide))] at h
  revert h
  decide

/-- C8 (witness).  The second pass on `tidySnapshot`. -/
theorem second_pass_effect_witness :
    repairPass 138 173 172 (repairPass 138 173 172 tidySnapshot) =
        { repairPass 138 173 172 tidySnapshot with
            _initialRoundInfo :=
              (repairPass 138 173 172 tidySnapshot)._initialRoundInfo.set 172
                (secondRound tidySnapshot 172)
            _currentRoundInfo :=
              (repairPass 138 173 172 tidySnapshot)._currentRoundInfo.set 172
                (secondRound tidySnapshot 172) } ∧
    (repairPass 138 173 172 (repairPass 138 173 172 tidySnapshot) =
        repairPass 138 173 172 tidySnapshot ↔
      amountSum (epochLive tidySnapshot 172) % 2 ^ 64 = 0) :=
  second_pass_effect tidySnapshot 138 173 172 tidy_ok (by decide) (by decide)

/-- C1 (witness).  Compaction preserves the live records of `tidySnapshot`. -/
theorem compaction_preserves_live_witness :
    windowLive tidySnapshot 138 (173 + 1 - 138) =
      windowScan (repairPass 138 173 172 tidySnapshot) 138 (173 + 1 - 138) :=
  compaction_preserves_live tidySnapshot 138 173 172 tidy_ok

/-- C2 (witness).  Epochs 171 and 172 of `tidySnapshot` stay contiguous. -/
theorem index_contiguity_preserved_witness :
    ((compactionPass 138 173 172 (Machine.start tidySnapshot))._epochIndex.get 171).endIndex =
      ((compactionPass 138 173 172 (Machine.start tidySnapshot))._epochIndex.get
        (171 + 1)).startIndex :=
  index_contiguity_preserved tidySnapshot 138 173 172 171 (by decide) (by decide) (by decide)
    (by decide)

/-- C3 (witness).  The tombstone count of epoch 171 of `tidySnapshot`. -/
theorem tombstone_count_witness :
    sub32 (sub32 (tidySnapshot._epochIndex.get 171).endIndex
        (tidySnapshot._epochIndex.get 171).startIndex)
      (sub32 ((compactionPass 138 173 172 (Machine.start tidySnapshot))._epochIndex.get
          171).endIndex
        ((compactionPass 138 173 172 (Machine.start tidySnapshot))._epochIndex.get
          171).startIndex) =
      epochTombs tidySnapshot 171 :=
  (tombstone_count tidySnapshot 138 173 172 171 (by decide) (by decide) (by decide)
    (by decide) (by decide)).1

/-- C4 (witness).  The correction of epoch 172 on `tidySnapshot`. -/
theorem round_info_correction_witness :
    ((repairPass 138 173 172 tidySnapshot)._currentRoundInfo.get 172)._totalLockedAmount =
        amountSum (epochLive tidySnapshot 172) ∧
    ((repairPass 138 173 172 tidySnapshot)._currentRoundInfo.get 172)._totalLockedAmount +
        ((repairPass 138 173 172 tidySnapshot)._currentRoundInfo.get 172)._epochBonusAmount =
      (tidySnapshot._currentRoundInfo.get 172)._epochBonusAmount :=
  round_info_correction tidySnapshot 138 173 172 (by decide) (by decide) (by decide)
    (by decide) (by decide)

/-- C6 (witness).  Slots 2 and 4 of the lock table after the pass on `tidySnapshot`. -/
theorem materialized_table_witness :
    (repairPass 138 173 172 tidySnapshot).locker.get 2 =
        (windowLive tidySnapshot 138 (173 + 1 - 138)).getD 2 default ∧
    (repairPass 138 173 172 tidySnapshot).locker.get 4 = zeroLock :=
  ⟨(materialized_table tidySnapshot 138 173 172 (by decide) (by decide)).1 (by decide) 2
      (by decide) (by decide),
    (materialized_table tidySnapshot 138 173 172 (by decide) (by decide)).2 4 (by decide)
      (by decide)⟩

/-- C9 (witness).  Indices 1 and 5 alias in a ring of capacity 4; indices 2 and 5 do not. -/
theorem mask_correctness_witness :
    (sampleRing.set 5 7).get 1 = 7 ∧ (sampleRing.set 5 7).get 2 = sampleRing.get 2 :=
  ⟨(mask_correctness 2 sampleRing 1 5 7).1 (by decide),
    (mask_correctness 2 sampleRing 2 5 7).2 (by decide)⟩

/-- C10 (witness).  An out-of-capacity range and a one-slot range of `sampleRing`. -/
theorem rangeEquals_spec_witness :
    sampleRing.rangeEquals 3 5 3 = false ∧
    (sampleRing.rangeEquals 1 2 1 = true ↔ ∀ i, 1 ≤ i → i < 2 → sampleRing.read i = 1) :=
  ⟨(rangeEquals_spec sampleRing 3 5 3).1 (by decide),
    (rangeEquals_spec sampleRing 1 2 1).2 (by decide)⟩

/-! ## Bounds of `get`, `set` and `setRange` -/

theorem array.mask_lt (n index : Nat) : index &&& (2 ^ n - 1) < 2 ^ n := by
  rw [array.mask_eq_mod]
  exact Nat.mod_lt _ (Nat.two_pow_pos n)

/-- C11.  `get` and `set` never go out of bounds: for a capacity `L = 2^n` and
any index, the slot position `index & (L - 1)` equals `index mod L` and is
less than `L`, so `get` returns the slot at that position and `set` stores
into it: neither takes the out-of-range branch of the bounds check. -/
theorem get_set_in_bounds {T : Type} [Inhabited T] (n : Nat) (a : array T (2 ^ n))
    (index : Nat) (value : T) :
    index &&& (2 ^ n - 1) = index % 2 ^ n ∧
    ∃ h : index &&& (2 ^ n - 1) < 2 ^ n,
      a.get index = a._values ⟨index &&& (2 ^ n - 1), h⟩ ∧
      a.set index value =
        ⟨fun p => if p.val = index &&& (2 ^ n - 1) then value else a._values p⟩ := by
  refine ⟨array.mask_eq_mod n index, array.mask_lt n index, ?_, ?_⟩
  · unfold array.get array.read
    rw [dif_pos (array.mask_lt n index)]
  · unfold array.set array.write
    rw [if_pos (array.mask_lt n index)]

theorem array.fold_write_read {T : Type} [Inhabited T] (n : Nat) (value : T) (js : List Nat)
    (a : array T (2 ^ n)) (k : Nat) :
    (js.foldl (fun acc i => acc.write (i &&& (2 ^ n - 1)) value) a).read k =
      if ∃ i, i ∈ js ∧ i % 2 ^ n = k then value else a.read k := by
  induction js generalizing a with
  | nil => simp
  | cons j js ih =>
    rw [List.foldl_cons, ih, array.read_write _ _ _ _ (array.mask_lt n j), array.mask_eq_mod]
    by_cases h1 : ∃ i, i ∈ js ∧ i % 2 ^ n = k
    · have h2 : ∃ i, i ∈ j :: js ∧ i % 2 ^ n = k := by
        obtain ⟨i, hi, hk⟩ := h1
        exact ⟨i, List.mem_cons_of_mem j hi, hk⟩
      rw [if_pos h1, if_pos h2]
    · rw [if_neg h1]
      by_cases h3 : k = j % 2 ^ n
      · have h2 : ∃ i, i ∈ j :: js ∧ i % 2 ^ n = k := ⟨j, List.mem_cons_self j js, h3.symm⟩
        rw [if_pos h3, if_pos h2]
      · have h2 : ¬ ∃ i, i ∈ j :: js ∧ i % 2 ^ n = k := by
          rintro ⟨i, hi, hk⟩
          rcases List.mem_cons.mp hi with h | h
          · exact h3 (by rw [← hk, h])
          · exact h1 ⟨i, h, hk⟩
        rw [if_neg h3, if_neg h2]

/-- C17.  `setRange` wraps: after `setRange(begin, end, value)` every slot at
position `i mod L` for `i` in `[begin, end)` holds `value`, and every slot
whose position is `i mod L` for no `i` in `[begin, end)` holds what it held
before. -/
theorem setRange_wraps {T : Type} [Inhabited T] (n : Nat) (a : array T (2 ^ n))
    (indexBegin indexEnd : Nat) (value : T) :
    (∀ i, indexBegin ≤ i → i < indexEnd →
      (a.setRange indexBegin indexEnd value).read (i % 2 ^ n) = value) ∧
    (∀ k, (¬ ∃ i, indexBegin ≤ i ∧ i < indexEnd ∧ i % 2 ^ n = k) →
      (a.setRange indexBegin indexEnd value).read k = a.read k) := by
  unfold array.setRange
  constructor
  · intro i h1 h2
    rw [array.fold_write_read, if_pos ⟨i, by rw [List.mem_range'_1]; omega, rfl⟩]
  · intro k h
    rw [array.fold_write_read, if_neg]
    rintro ⟨i, hi, hk⟩
    rw [List.mem_range'_1] at hi
    exact h ⟨i, hi.1, by omega, hk⟩

/-- C11 (witness).  Index 5 in a ring of capacity 4. -/
theorem get_set_in_bounds_witness :
    (5 : Nat) &&& (2 ^ 2 - 1) = 5 % 2 ^ 2 ∧
    ∃ h : (5 : Nat) &&& (2 ^ 2 - 1) < 2 ^ 2,
      sampleRing.get 5 = sampleRing._values ⟨5 &&& (2 ^ 2 - 1), h⟩ ∧
      sampleRing.set 5 7 =
        ⟨fun p => if p.val = 5 &&& (2 ^ 2 - 1) then 7 else sampleRing._values p⟩ :=
  get_set_in_bounds 2 sampleRing 5 7

/-- C17 (witness).  `setRange(3, 6, 9)` on a ring of capacity 4 wraps to slot 1 and
leaves slot 2. -/
theorem setRange_wraps_witness :
    (sampleRing.setRange 3 6 9).read (5 % 2 ^ 2) = 9 ∧
    (sampleRing.setRange 3 6 9).read 2 = sampleRing.read 2 :=
  ⟨(setRange_wraps 2 sampleRing 3 6 9).1 5 (by decide) (by decide),
    (setRange_wraps 2 sampleRing 3 6 9).2 2 (by
      rintro ⟨i, h1, h2, h3⟩
      omega)⟩

/-! ## Frames, the initial table and the live-record count -/

theorem mod_ne_of_lt (e f : Nat) (he : e < QEARN_MAX_EPOCHS) (hf : f < QEARN_MAX_EPOCHS)
    (hne : e ≠ f) : ¬ e % QEARN_MAX_EPOCHS = f % QEARN_MAX_EPOCHS := by
  rw [Nat.mod_eq_of_lt he, Nat.mod_eq_of_lt hf]
  exact hne

/-- C12.  Frame of the correction: for every epoch `e` of the table other than
`epochFix`, `currentRoundInfo[e]` and `initialRoundInfo[e]` after the whole
pass equal their values before it. -/
theorem correction_frame (s : Snapshot) (lo hi epochFix e : Nat) (hlo : lo ≤ hi)
    (hhi : hi < QEARN_MAX_EPOCHS) (he : e < QEARN_MAX_EPOCHS)
    (hfix : epochFix < QEARN_MAX_EPOCHS) (hne : e ≠ epochFix) :
    (repairPass lo hi epochFix s)._currentRoundInfo.get e = s._currentRoundInfo.get e ∧
    (repairPass lo hi epochFix s)._initialRoundInfo.get e = s._initialRoundInfo.get e := by
  rw [repairPass_eq s lo hi epochFix hlo hhi]
  simp only []
  rw [array.get_set_pow 12 epochs_pow, array.get_set_pow 12 epochs_pow,
    if_neg (mod_ne_of_lt e epochFix he hfix hne), if_neg (mod_ne_of_lt e epochFix he hfix hne)]
  exact ⟨rfl, rfl⟩

/-- C14.  Narrow zero-fill bound: for every slot `i` with
`QEARN_MAX_USERS <= i < QEARN_MAX_LOCKS` the lock record at `i` after the pass
equals the record at `i` before the pass. -/
theorem zero_fill_bound (s : Snapshot) (lo hi epochFix i : Nat) (hlo : lo ≤ hi)
    (hhi : hi < QEARN_MAX_EPOCHS) (h1 : QEARN_MAX_USERS ≤ i) (h2 : i < QEARN_MAX_LOCKS) :
    (repairPass lo hi epochFix s).locker.get i = s.locker.get i := by
  rw [repairPass_eq s lo hi epochFix hlo hhi]
  simp only []
  rw [materializedLocker_get _ _ _ _ _ h2, if_neg (by omega)]

/-- C20.  Frame of the index rewrite: the index entry of every epoch of the
table outside the window is the same after the pass as before, and the
unlock-history tables, the unlock counts and the stats table are unchanged. -/
theorem index_frame (s : Snapshot) (lo hi epochFix : Nat) (hlo : lo ≤ hi)
    (hhi : hi < QEARN_MAX_EPOCHS) :
    (∀ e, e < QEARN_MAX_EPOCHS → e < lo ∨ hi < e →
      (repairPass lo hi epochFix s)._epochIndex.get e = s._epochIndex.get e) ∧
    (repairPass lo hi epochFix s).earlyUnlocker = s.earlyUnlocker ∧
    (repairPass lo hi epochFix s).fullyUnlocker = s.fullyUnlocker ∧
    (repairPass lo hi epochFix s)._earlyUnlockedCnt = s._earlyUnlockedCnt ∧
    (repairPass lo hi epochFix s)._fullyUnlockedCnt = s._fullyUnlockedCnt ∧
    (repairPass lo hi epochFix s).statsInfo = s.statsInfo := by
  rw [repairPass_eq s lo hi epochFix hlo hhi]
  refine ⟨?_, rfl, rfl, rfl, rfl, rfl⟩
  intro e he hout
  simp only []
  rw [rewrittenIndex_get s lo _ e he, if_neg (by omega)]

/-- C13 (amended).  The correction stores the same record in both tables:
afterwards `initialRoundInfo[epochFix]` equals `currentRoundInfo[epochFix]`,
its `totalLockedAmount` is the live total of `epochFix` modulo `2^64` and its
`epochBonusAmount` is the bonus amount `currentRoundInfo[epochFix]` held before
minus the live total, modulo `2^64`; when the live total does not exceed that
64-bit bonus amount, the two fields are the live total and the difference
over the integers. -/
theorem initial_correction (s : Snapshot) (lo hi epochFix : Nat)
    (hlo : lo ≤ epochFix) (hfix : epochFix ≤ hi) (hwin : hi < QEARN_MAX_EPOCHS) :
    (repairPass lo hi epochFix s)._initialRoundInfo.get epochFix =
        (repairPass lo hi epochFix s)._currentRoundInfo.get epochFix ∧
    ((repairPass lo hi epochFix s)._initialRoundInfo.get epochFix)._totalLockedAmount =
        amountSum (epochLive s epochFix) % 2 ^ 64 ∧
    ((repairPass lo hi epochFix s)._initialRoundInfo.get epochFix)._epochBonusAmount =
        ((s._currentRoundInfo.get epochFix)._epochBonusAmount +
          (2 ^ 64 - amountSum (epochLive s epochFix) % 2 ^ 64)) % 2 ^ 64 ∧
    (amountSum (epochLive s epochFix) ≤ (s._currentRoundInfo.get epochFix)._epochBonusAmount →
      (s._currentRoundInfo.get epochFix)._epochBonusAmount < 2 ^ 64 →
      ((repairPass lo hi epochFix s)._initialRoundInfo.get epochFix)._totalLockedAmount =
          amountSum (epochLive s epochFix) ∧
      (((repairPass lo hi epochFix s)._initialRoundInfo.get epochFix)._epochBonusAmount : Int) =
          ((s._currentRoundInfo.get epochFix)._epochBonusAmount : Int) -
            (amountSum (epochLive s epochFix) : Int)) := by
  rw [repairPass_initial_fix s lo hi epochFix (by omega) hwin,
    repairPass_current_fix s lo hi epochFix (by omega) hwin]
  simp only [correctedRound, fixTotal_eq s lo hi epochFix hlo hfix, sub64]
  refine ⟨trivial, trivial, ?_, ?_⟩
  · omega
  · intro h1 h2
    constructor <;> omega

/-- C13 (counterexample).  On `overdrawnSnapshot` (live total 8, bonus 5) the
bonus amount stored in `initialRoundInfo[172]` is `2^64 - 3`, not `5 - 8`. -/
theorem initial_correction_fails :
    ¬ ((((mainPass overdrawnSnapshot)._initialRoundInfo.get 172)._epochBonusAmount : Int) =
      ((overdrawnSnapshot._currentRoundInfo.get 172)._epochBonusAmount : Int) -
        (amountSum (epochLive overdrawnSnapshot 172) : Int)) := by
  rw [mainPass_eq, repairPass_initial_fix _ _ _ _ (by decide) (by decide)]
  decide

theorem windowSpan_eq (s : Snapshot) (lo hi : Nat)
    (hord : ∀ e, lo ≤ e → e ≤ hi →
      (s._epochIndex.get e).startIndex ≤ (s._epochIndex.get e).endIndex)
    (k : Nat) (hk : lo + k ≤ hi + 1) :
    ((windowLive s lo k).length : Int) = windowSpan s lo k - (windowTombs s lo k : Int) := by
  induction k with
  | zero => simp [windowLive, windowSpan, windowTombs]
  | succ k ih =>
    have h1 := ih (by omega)
    have h2 := epoch_live_add_tombs s (lo + k)
    have h3 := hord (lo + k) (by omega) (by omega)
    simp only [windowLive, windowSpan, windowTombs, List.length_append]
    omega

theorem windowSlots_eq (s : Snapshot) (lo k : Nat) :
    (windowLive s lo k).length + windowTombs s lo k = windowSlots s lo k := by
  induction k with
  | zero => rfl
  | succ k ih =>
    have h := live_add_tombs s.locker (epochSlots s (lo + k))
    simp only [windowLive, windowTombs, windowSlots, List.length_append, epochLive, epochTombs]
    omega

/-- C16 (amended).  After the compaction loop `newLockerCnt` is the number of
live records of the window and `cur_cnt` the number of its tombstones, both
modulo `2^32`; live records plus tombstones are the slots the loop visited;
and when every epoch of the window has `startIndex <= endIndex`, the number
of live records is the sum of the old spans minus the tombstones. -/
theorem live_record_count (s : Snapshot) (lo hi epochFix : Nat) (hlo : lo ≤ hi)
    (hhi : hi < QEARN_MAX_EPOCHS) :
    (compactionPass lo hi epochFix (Machine.start s)).newLockerCnt =
        (windowLive s lo (hi + 1 - lo)).length % 2 ^ 32 ∧
    (compactionPass lo hi epochFix (Machine.start s)).cur_cnt =
        windowTombs s lo (hi + 1 - lo) % 2 ^ 32 ∧
    (windowLive s lo (hi + 1 - lo)).length + windowTombs s lo (hi + 1 - lo) =
        windowSlots s lo (hi + 1 - lo) ∧
    ((∀ e, lo ≤ e → e ≤ hi →
        (s._epochIndex.get e).startIndex ≤ (s._epochIndex.get e).endIndex) →
      ((windowLive s lo (hi + 1 - lo)).length : Int) =
        windowSpan s lo (hi + 1 - lo) - (windowTombs s lo (hi + 1 - lo) : Int)) := by
  rw [compactionPass_eq s lo hi epochFix hlo hhi]
  refine ⟨inc32_zero _, cumTombs32_eq s lo _, windowSlots_eq s lo _, ?_⟩
  intro hord
  exact windowSpan_eq s lo hi hord _ (by omega)

/-- C16 (counterexample).  On `reversedSnapshot` nothing is appended and no
tombstone is counted, while the old spans of the window sum to `3 - 5 = -2`. -/
theorem live_record_count_fails :
    ¬ (((compactionPass 138 173 172 (Machine.start reversedSnapshot)).newLockerCnt : Int) =
      windowSpan reversedSnapshot 138 36 -
        ((compactionPass 138 173 172 (Machine.start reversedSnapshot)).cur_cnt : Int)) := by
  rw [compactionPass_eq _ _ _ _ (by decide) (by decide)]
  decide

/-! ## Rewritten ranges on ordered, contiguous windows -/

theorem WindowOk.ranges {s : Snapshot} {lo hi : Nat} (hw : WindowOk s lo hi) :
    RangesOk s lo hi :=
  ⟨hw.window, hw.ordered, hw.contiguous, hw.bounded⟩

theorem window_fill_offset (s : Snapshot) (lo hi : Nat) (hr : RangesOk s lo hi) (k : Nat)
    (hk : lo + k ≤ hi) :
    (s._epochIndex.get lo).startIndex + (windowLive s lo k).length + windowTombs s lo k =
      (s._epochIndex.get (lo + k)).startIndex := by
  induction k with
  | zero => simp [windowLive, windowTombs]
  | succ k ih =>
    have h1 := ih (by omega)
    have h2 := epoch_live_add_tombs s (lo + k)
    have h3 := hr.ordered (lo + k) (by omega) (by omega)
    have h4 := hr.contiguous (lo + k) (by omega) (by omega)
    simp only [windowLive, windowTombs, List.length_append]
    rw [show lo + (k + 1) = lo + k + 1 from rfl, ← h4]
    omega

theorem rewrittenEntry_offset (s : Snapshot) (lo hi : Nat) (hr : RangesOk s lo hi) (k : Nat)
    (hk : lo + k ≤ hi) :
    rewrittenEntry s lo (lo + k) =
      ⟨(s._epochIndex.get lo).startIndex + (windowLive s lo k).length,
        (s._epochIndex.get lo).startIndex + (windowLive s lo k).length +
          (epochLive s (lo + k)).length⟩ ∧
    windowTombs s lo k ≤ (s._epochIndex.get (lo + k)).startIndex ∧
    windowTombs s lo k + epochTombs s (lo + k) ≤ (s._epochIndex.get (lo + k)).endIndex := by
  have h1 := window_fill_offset s lo hi hr k hk
  have h2 := epoch_live_add_tombs s (lo + k)
  have h3 := hr.ordered (lo + k) (by omega) hk
  have h5 := hr.bounded (lo + k) (by omega) hk
  refine ⟨?_, by omega, by omega⟩
  simp only [rewrittenEntry, Nat.add_sub_cancel_left, cumTombs32_eq, inc32_zero, sub32,
    EpochIndexInfo.mk.injEq]
  constructor <;> omega

/-- C18 (amended).  Rewritten ranges are offset by the first epoch's old start:
when the old ranges of the window are ordered and contiguous, the rewritten
`startIndex` of each epoch `e` is the old `startIndex` of `epochLow` plus the
number of live records of the window's epochs before `e`, and the rewritten
`endIndex` is that start plus the number of live records of `e`; the first
epoch's `startIndex` is unchanged.  The compacted records sit in the lock
table from slot 0 on as far as the copy reaches: when at most
`QEARN_MAX_LOCKS` live records are collected, slot `k` holds the `k`-th of
them for every `k` below their number and below `QEARN_MAX_USERS`. -/
theorem rewritten_ranges_offset (s : Snapshot) (lo hi epochFix : Nat)
    (hr : RangesOk s lo hi) :
    (∀ e, lo ≤ e → e ≤ hi →
      ((repairPass lo hi epochFix s)._epochIndex.get e).startIndex =
          (s._epochIndex.get lo).startIndex + (windowLive s lo (e - lo)).length ∧
      ((repairPass lo hi epochFix s)._epochIndex.get e).endIndex =
          ((repairPass lo hi epochFix s)._epochIndex.get e).startIndex +
            (epochLive s e).length) ∧
    ((repairPass lo hi epochFix s)._epochIndex.get lo).startIndex =
        (s._epochIndex.get lo).startIndex ∧
    ((windowLive s lo (hi + 1 - lo)).length ≤ QEARN_MAX_LOCKS →
      ∀ k, k < (windowLive s lo (hi + 1 - lo)).length → k < QEARN_MAX_USERS →
        (repairPass lo hi epochFix s).locker.get k =
          (windowLive s lo (hi + 1 - lo)).getD k default) := by
  have hwin := hr.window
  have hent : ∀ e, lo ≤ e → e ≤ hi →
      (repairPass lo hi epochFix s)._epochIndex.get e =
        ⟨(s._epochIndex.get lo).startIndex + (windowLive s lo (e - lo)).length,
          (s._epochIndex.get lo).startIndex + (windowLive s lo (e - lo)).length +
            (epochLive s e).length⟩ := by
    intro e h1 h2
    have h3 := (rewrittenEntry_offset s lo hi hr (e - lo) (by omega)).1
    rw [show lo + (e - lo) = e by omega] at h3
    rw [repairPass_index_get s lo hi epochFix e h1 h2 hwin.2, h3]
  refine ⟨?_, ?_, ?_⟩
  · intro e h1 h2
    rw [hent e h1 h2]
    exact ⟨rfl, rfl⟩
  · rw [hent lo (Nat.le_refl lo) hwin.1, Nat.sub_self]
    rfl
  · intro hn k h1 h2
    have hU : QEARN_MAX_USERS = 131072 := rfl
    have hL : QEARN_MAX_LOCKS = 4194304 := rfl
    rw [repairPass_locker_get s lo hi epochFix k hwin.1 hwin.2 (by omega) hn, if_pos h2,
      if_pos h1]

/-- C19.  The index rewrite preserves the `EpochIndexInfo` invariants: when the
old ranges of the window are ordered and contiguous, after the pass every
epoch of the window has `startIndex <= endIndex`, consecutive epochs are
contiguous, and no subtraction wrapped: the rewritten bounds are the old
bounds minus the tombstone counts over the integers. -/
theorem invariants_preserved (s : Snapshot) (lo hi epochFix : Nat)
    (hr : RangesOk s lo hi) :
    (∀ e, lo ≤ e → e ≤ hi →
      ((repairPass lo hi epochFix s)._epochIndex.get e).startIndex ≤
        ((repairPass lo hi epochFix s)._epochIndex.get e).endIndex) ∧
    (∀ e, lo ≤ e → e < hi →
      ((repairPass lo hi epochFix s)._epochIndex.get e).endIndex =
        ((repairPass lo hi epochFix s)._epochIndex.get (e + 1)).startIndex) ∧
    (∀ e, lo ≤ e → e ≤ hi →
      (((repairPass lo hi epochFix s)._epochIndex.get e).startIndex : Int) =
          ((s._epochIndex.get e).startIndex : Int) - (windowTombs s lo (e - lo) : Int) ∧
      (((repairPass lo hi epochFix s)._epochIndex.get e).endIndex : Int) =
          ((s._epochIndex.get e).endIndex : Int) - (windowTombs s lo (e - lo) : Int) -
            (epochTombs s e : Int)) := by
  have hwin := hr.window
  have hent : ∀ k, lo + k ≤ hi →
      (repairPass lo hi epochFix s)._epochIndex.get (lo + k) =
        ⟨(s._epochIndex.get lo).startIndex + (windowLive s lo k).length,
          (s._epochIndex.get lo).startIndex + (windowLive s lo k).length +
            (epochLive s (lo + k)).length⟩ := by
    intro k hk
    rw [repairPass_index_get s lo hi epochFix (lo + k) (by omega) hk hwin.2,
      (rewrittenEntry_offset s lo hi hr k hk).1]
  refine ⟨?_, ?_, ?_⟩
  · intro e h1 h2
    obtain ⟨k, rfl⟩ : ∃ k, e = lo + k := ⟨e - lo, by omega⟩
    rw [hent k h2]
    exact Nat.le_add_right _ _
  · intro e h1 h2
    obtain ⟨k, rfl⟩ : ∃ k, e = lo + k := ⟨e - lo, by omega⟩
    rw [hent k (by omega), show lo + k + 1 = lo + (k + 1) from rfl, hent (k + 1) (by omega)]
    simp only [windowLive, List.length_append]
    omega
  · intro e h1 h2
    obtain ⟨k, rfl⟩ : ∃ k, e = lo + k := ⟨e - lo, by omega⟩
    have hf := window_fill_offset s lo hi hr k h2
    have h3 := epoch_live_add_tombs s (lo + k)
    have h4 := hr.ordered (lo + k) (by omega) h2
    rw [hent k h2, Nat.add_sub_cancel_left]
    simp only []
    constructor <;> omega

/-! ## Codec round trip -/

theorem ifstream.read_enough (f : ifstream) (object : List Byte) (hg : f.good = true)
    (hl : object.length ≤ f.rest.length) :
    f.read object =
      ({ rest := f.rest.drop object.length, good := true }, f.rest.take object.length) := by
  unfold ifstream.read
  rw [if_pos hg, if_pos hl]

theorem ifstream.read_failed (f : ifstream) (object : List Byte) (hg : f.good = false) :
    f.read object = (f, object) := by
  unfold ifstream.read
  rw [if_neg (by simp [hg])]

theorem readOldState_enough (bytes : List Byte) (g : Image) (h : g.size ≤ bytes.length) :
    (readOldState (some bytes) g).map writeNewState = Except.ok (bytes.take g.size) := by
  unfold Image.size at h
  have e1 := ifstream.read_enough { rest := bytes, good := true } g._initialRoundInfo rfl
    (by simp only []; omega)
  have e2 := ifstream.read_enough
    { rest := bytes.drop g._initialRoundInfo.length, good := true } g._currentRoundInfo rfl
    (by simp only [List.length_drop]; omega)
  have e3 := ifstream.read_enough
    { rest := (bytes.drop g._initialRoundInfo.length).drop g._currentRoundInfo.length,
      good := true } g._epochIndex rfl
    (by simp only [List.length_drop]; omega)
  have e4 := ifstream.read_enough
    { rest := ((bytes.drop g._initialRoundInfo.length).drop g._currentRoundInfo.length).drop
        g._epochIndex.length, good := true } g.locker rfl
    (by simp only [List.length_drop]; omega)
  have e5 := ifstream.read_enough
    { rest := (((bytes.drop g._initialRoundInfo.length).drop g._currentRoundInfo.length).drop
        g._epochIndex.length).drop g.locker.length, good := true } g.earlyUnlocker rfl
    (by simp only [List.length_drop]; omega)
  have e6 := ifstream.read_enough
    { rest := ((((bytes.drop g._initialRoundInfo.length).drop g._currentRoundInfo.length).drop
        g._epochIndex.length).drop g.locker.length).drop g.earlyUnlocker.length,
      good := true } g.fullyUnlocker rfl
    (by simp only [List.length_drop]; omega)
  have e7 := ifstream.read_enough
    { rest := (((((bytes.drop g._initialRoundInfo.length).drop g._currentRoundInfo.length).drop
        g._epochIndex.length).drop g.locker.length).drop g.earlyUnlocker.length).drop
        g.fullyUnlocker.length, good := true } g._earlyUnlockedCnt rfl
    (by simp only [List.length_drop]; omega)
  have e8 := ifstream.read_enough
    { rest := ((((((bytes.drop g._initialRoundInfo.length).drop
        g._currentRoundInfo.length).drop g._epochIndex.length).drop g.locker.length).drop
        g.earlyUnlocker.length).drop g.fullyUnlocker.length).drop g._earlyUnlockedCnt.length,
      good := true } g._fullyUnlockedCnt rfl
    (by simp only [List.length_drop]; omega)
  have e9 := ifstream.read_enough
    { rest := (((((((bytes.drop g._initialRoundInfo.length).drop
        g._currentRoundInfo.length).drop g._epochIndex.length).drop g.locker.length).drop
        g.earlyUnlocker.length).drop g.fullyUnlocker.length).drop
        g._earlyUnlockedCnt.length).drop g._fullyUnlockedCnt.length,
      good := true } g.statsInfo rfl
    (by simp only [List.length_drop]; omega)
  simp only [readOldState, e1, e2, e3, e4, e5, e6, e7, e8, e9, Except.map, writeNewState,
    Image.size]
  congr 1
  simp only [List.take_add, List.drop_drop, List.append_assoc, Nat.add_comm, Nat.add_left_comm,
    Nat.add_assoc]


theorem ifstream.read_length (f : ifstream) (object : List Byte) :
    (f.read object).2.length = object.length := by
  unfold ifstream.read
  by_cases hg : f.good = true
  · by_cases hl : object.length ≤ f.rest.length
    · rw [if_pos hg, if_pos hl]
      simp only [List.length_take]
      omega
    · rw [if_pos hg, if_neg hl]
      simp only [List.length_append, List.length_drop]
      omega
  · rw [if_neg hg]

theorem writeNewState_length (bytes : List Byte) (g : Image) :
    ∃ g1, readOldState (some bytes) g = Except.ok g1 ∧ (writeNewState g1).length = g.size := by
  refine ⟨_, rfl, ?_⟩
  simp only [writeNewState, List.length_append, ifstream.read_length, Image.size]

/-- C15 (amended).  Codec round trip: writing the state that `readOldState`
loads from `bytes` reproduces `bytes` exactly when `bytes` has the size of the
persisted globals (a shorter file is completed from the globals' previous
content, a longer one is cut). -/
theorem codec_round_trip (bytes : List Byte) (g : Image) :
    (readOldState (some bytes) g).map writeNewState = Except.ok bytes ↔
      bytes.length = g.size := by
  constructor
  · intro h
    obtain ⟨g1, h1, h2⟩ := writeNewState_length bytes g
    rw [h1] at h
    simp only [Except.map, Except.ok.injEq] at h
    rw [← h2, h]
  · intro h
    rw [readOldState_enough bytes g (by omega), ← h, List.take_length]

theorem zeroImage_initial (a b : Nat) :
    (zeroImage a b)._initialRoundInfo = List.replicate (16 * QEARN_MAX_EPOCHS) 0 := rfl

theorem Image.initial_le_size (g : Image) : g._initialRoundInfo.length ≤ g.size := by
  unfold Image.size
  omega

theorem zeroImage_size_pos (a b : Nat) : 0 < (zeroImage a b).size :=
  Nat.lt_of_lt_of_le (by rw [zeroImage_initial, List.length_replicate]; decide)
    (Image.initial_le_size _)

/-- C15 (counterexample).  For an empty file the globals keep their zero bytes
and `writeNewState` writes all of them, not the empty stream. -/
theorem codec_round_trip_fails :
    (readOldState (some []) (zeroImage 48 48)).map writeNewState ≠ Except.ok [] := by
  intro h
  obtain ⟨g1, h1, h2⟩ := writeNewState_length [] (zeroImage 48 48)
  rw [h1] at h
  simp only [Except.map, Except.ok.injEq] at h
  rw [h] at h2
  have h3 := zeroImage_size_pos 48 48
  rw [← h2] at h3
  exact absurd h3 (by decide)


/-! ## The scenario in the program's window -/

theorem epochLive_of_empty (s : Snapshot) (e : Nat)
    (h : (s._epochIndex.get e).endIndex ≤ (s._epochIndex.get e).startIndex) :
    epochLive s e = [] ∧ epochTombs s e = 0 := by
  have hs : epochSlots s e = [] := by
    unfold epochSlots
    rw [Nat.sub_eq_zero_of_le h]
    rfl
  unfold epochLive epochTombs
  rw [hs]
  exact ⟨rfl, rfl⟩

theorem window_of_empty (s : Snapshot) (lo k : Nat)
    (h : ∀ e, lo ≤ e → e < lo + k →
      (s._epochIndex.get e).endIndex ≤ (s._epochIndex.get e).startIndex) :
    windowLive s lo k = [] ∧ windowTombs s lo k = 0 := by
  induction k with
  | zero => exact ⟨rfl, rfl⟩
  | succ k ih =>
    obtain ⟨h1, h2⟩ := ih (fun e he1 he2 => h e he1 (by omega))
    obtain ⟨h3, h4⟩ := epochLive_of_empty s (lo + k) (h (lo + k) (by omega) (by omega))
    rw [windowLive, windowTombs, h1, h2, h3, h4]
    exact ⟨rfl, rfl⟩

theorem scenario_live_at (s : Snapshot) (e0 e1 : Nat)
    (h0 : s._epochIndex.get e0 = ⟨0, 4⟩) (h1 : s._epochIndex.get e1 = ⟨4, 6⟩)
    (a0 : (s.locker.get 0)._lockedAmount = 5) (a1 : (s.locker.get 1)._lockedAmount = 0)
    (a2 : (s.locker.get 2)._lockedAmount = 3) (a3 : (s.locker.get 3)._lockedAmount = 0)
    (a4 : (s.locker.get 4)._lockedAmount = 7) (a5 : (s.locker.get 5)._lockedAmount = 2) :
    epochLive s e0 = [s.locker.get 0, s.locker.get 2] ∧
    epochLive s e1 = [s.locker.get 4, s.locker.get 5] ∧
    epochTombs s e0 = 2 ∧ epochTombs s e1 = 0 := by
  have e0s : epochSlots s e0 = [0, 1, 2, 3] := by
    unfold epochSlots
    rw [h0]
    rfl
  have e1s : epochSlots s e1 = [4, 5] := by
    unfold epochSlots
    rw [h1]
    rfl
  unfold epochLive epochTombs
  rw [e0s, e1s]
  simp only [liveAt_cons, tombsAt_cons, liveAt_nil, tombsAt_nil, a0, a1, a2, a3, a4, a5]
  simp

/-- C5 (amended).  Scenario, for the program's window `138 .. 173` and corrected
epoch 172: on a snapshot where the epochs 138 to 171 own no slot, epoch 172
has index `[0, 4)` with lock amounts `5, 0, 3, 0`, epoch 173 has index
`[4, 6)` with amounts `7, 2`, and the bonus amount of epoch 172 is 20, the
pass yields index `[0, 2)` for epoch 172 with slots `0 .. 1` holding amounts
`5, 3`, index `[2, 4)` for epoch 173 with slots `2 .. 3` holding `7, 2`, and
`currentRoundInfo[172] = {8, 12}`. -/
theorem scenario_moved (s : Snapshot)
    (hempty : ∀ e, 138 ≤ e → e < 172 →
      (s._epochIndex.get e).endIndex ≤ (s._epochIndex.get e).startIndex)
    (h0 : s._epochIndex.get 172 = ⟨0, 4⟩) (h1 : s._epochIndex.get 173 = ⟨4, 6⟩)
    (a0 : (s.locker.get 0)._lockedAmount = 5) (a1 : (s.locker.get 1)._lockedAmount = 0)
    (a2 : (s.locker.get 2)._lockedAmount = 3) (a3 : (s.locker.get 3)._lockedAmount = 0)
    (a4 : (s.locker.get 4)._lockedAmount = 7) (a5 : (s.locker.get 5)._lockedAmount = 2)
    (hb : (s._currentRoundInfo.get 172)._epochBonusAmount = 20) :
    (mainPass s)._epochIndex.get 172 = ⟨0, 2⟩ ∧
    (mainPass s)._epochIndex.get 173 = ⟨2, 4⟩ ∧
    ((mainPass s).locker.get 0)._lockedAmount = 5 ∧
    ((mainPass s).locker.get 1)._lockedAmount = 3 ∧
    ((mainPass s).locker.get 2)._lockedAmount = 7 ∧
    ((mainPass s).locker.get 3)._lockedAmount = 2 ∧
    (mainPass s)._currentRoundInfo.get 172 = ⟨8, 12⟩ := by
  obtain ⟨l0, l1, t0, t1⟩ := scenario_live_at s 172 173 h0 h1 a0 a1 a2 a3 a4 a5
  obtain ⟨w0, w1⟩ := window_of_empty s 138 34 (fun e he1 he2 => hempty e he1 (by omega))
  have hw : windowLive s 138 (173 + 1 - 138) =
      [s.locker.get 0, s.locker.get 2, s.locker.get 4, s.locker.get 5] := by
    show windowLive s 138 (34 + 1 + 1) = _
    rw [windowLive, windowLive, w0]
    show [] ++ epochLive s 172 ++ epochLive s 173 = _
    rw [l0, l1]
    rfl
  have hlen : (windowLive s 138 (173 + 1 - 138)).length ≤ QEARN_MAX_LOCKS := by
    rw [hw]
    simp [QEARN_MAX_LOCKS]
  have hk : ∀ k, k < 4 →
      (repairPass 138 173 172 s).locker.get k =
        [s.locker.get 0, s.locker.get 2, s.locker.get 4, s.locker.get 5].getD k default := by
    intro k hk
    have hL : QEARN_MAX_LOCKS = 4194304 := rfl
    have hU : QEARN_MAX_USERS = 131072 := rfl
    rw [repairPass_locker_get s 138 173 172 k (by decide) (by decide) (by omega) hlen, hw,
      if_pos (by omega), if_pos (by simpa using hk)]
  have ht34 : windowTombs s 138 (172 - 138) = 0 := w1
  have ht35 : windowTombs s 138 (173 - 138) = 2 := by
    show windowTombs s 138 (34 + 1) = 2
    rw [windowTombs, w1]
    show 0 + epochTombs s 172 = 2
    rw [t0]
  rw [mainPass_eq]
  refine ⟨?_, ?_, ?_, ?_, ?_, ?_, ?_⟩
  · rw [repairPass_index_get s 138 173 172 172 (by decide) (by decide) (by decide)]
    simp only [rewrittenEntry, h0, t0, cumTombs32_eq, ht34]
    decide
  · rw [repairPass_index_get s 138 173 172 173 (by decide) (by decide) (by decide)]
    simp only [rewrittenEntry, h1, t1, cumTombs32_eq, ht35]
    decide
  · rw [hk 0 (by decide)]
    simpa using a0
  · rw [hk 1 (by decide)]
    simpa using a2
  · rw [hk 2 (by decide)]
    simpa using a4
  · rw [hk 3 (by decide)]
    simpa using a5
  · rw [repairPass_current_fix s 138 173 172 (by decide) (by decide)]
    have hs : amountSum (epochLive s 172) = 8 := by
      simp [l0, amountSum, a0, a2]
    simp only [correctedRound, fixTotal_eq s 138 173 172 (by decide) (by decide), hs, hb]
    decide

theorem moved_index (e : Nat) (he : e < QEARN_MAX_EPOCHS) :
    movedScenarioSnapshot._epochIndex.get e =
      if e < 172 then ⟨0, 0⟩ else if e = 172 then ⟨0, 4⟩
        else if e = 173 then ⟨4, 6⟩ else ⟨6, 6⟩ := by
  rw [array.get_of_lt 12 epochs_pow _ e he]
  rfl

/-- C5 (witness).  The scenario on `movedScenarioSnapshot`. -/
theorem scenario_moved_witness :
    (mainPass movedScenarioSnapshot)._epochIndex.get 172 = ⟨0, 2⟩ ∧
    (mainPass movedScenarioSnapshot)._epochIndex.get 173 = ⟨2, 4⟩ ∧
    ((mainPass movedScenarioSnapshot).locker.get 0)._lockedAmount = 5 ∧
    ((mainPass movedScenarioSnapshot).locker.get 1)._lockedAmount = 3 ∧
    ((mainPass movedScenarioSnapshot).locker.get 2)._lockedAmount = 7 ∧
    ((mainPass movedScenarioSnapshot).locker.get 3)._lockedAmount = 2 ∧
    (mainPass movedScenarioSnapshot)._currentRoundInfo.get 172 = ⟨8, 12⟩ :=
  scenario_moved movedScenarioSnapshot
    (by
      intro e h1 h2
      rw [moved_index e (by unfold QEARN_MAX_EPOCHS; omega), if_pos h2])
    (by decide) (by decide) (by decide) (by decide) (by decide) (by decide) (by decide)
    (by decide) (by decide)

/-- C5 (counterexample).  The program's pass on `scenarioSnapshot`, whose data
sit in the epochs 0 and 1 outside the window `138 .. 173`: the index entries
of the epochs 0 and 1 stay `[0, 4)` and `[4, 6)`, slot 0 is zero filled and
`currentRoundInfo[0]` stays `{0, 20}`. -/
theorem scenario_fails :
    (mainPass scenarioSnapshot)._epochIndex.get 0 = ⟨0, 4⟩ ∧
    (mainPass scenarioSnapshot)._epochIndex.get 1 = ⟨4, 6⟩ ∧
    ((mainPass scenarioSnapshot).locker.get 0)._lockedAmount = 0 ∧
    (mainPass scenarioSnapshot)._currentRoundInfo.get 0 = ⟨0, 20⟩ ∧
    ¬ ((mainPass scenarioSnapshot)._epochIndex.get 0 = ⟨0, 2⟩ ∧
      (mainPass scenarioSnapshot)._epochIndex.get 1 = ⟨2, 4⟩ ∧
      ((mainPass scenarioSnapshot).locker.get 0)._lockedAmount = 5 ∧
      ((mainPass scenarioSnapshot).locker.get 1)._lockedAmount = 3 ∧
      ((mainPass scenarioSnapshot).locker.get 2)._lockedAmount = 7 ∧
      ((mainPass scenarioSnapshot).locker.get 3)._lockedAmount = 2 ∧
      (mainPass scenarioSnapshot)._currentRoundInfo.get 0 = ⟨8, 12⟩) := by
  rw [mainPass_eq, repairPass_eq _ _ _ _ (by decide) (by decide)]
  decide

/-! ## Records beyond the copy bound -/

theorem crowded_index (e : Nat) (he : e < QEARN_MAX_EPOCHS) :
    crowdedSnapshot._epochIndex.get e =
      if e < 138 then ⟨0, 0⟩ else if e = 138 then ⟨0, 131074⟩ else ⟨131074, 131074⟩ := by
  rw [array.get_of_lt 12 epochs_pow _ e he]
  rfl

theorem crowded_ranges : RangesOk crowdedSnapshot 138 173 where
  window := by decide
  ordered := by
    intro e h1 h2
    rw [crowded_index e (by unfold QEARN_MAX_EPOCHS; omega)]
    split_ifs <;> decide
  contiguous := by
    intro e h1 h2
    rw [crowded_index e (by unfold QEARN_MAX_EPOCHS; omega),
      crowded_index (e + 1) (by unfold QEARN_MAX_EPOCHS; omega)]
    split_ifs <;> first | rfl | omega
  bounded := by
    intro e h1 h2
    rw [crowded_index e (by unfold QEARN_MAX_EPOCHS; omega)]
    split_ifs <;> decide

theorem offset_index (e : Nat) (he : e < QEARN_MAX_EPOCHS) :
    offsetSnapshot._epochIndex.get e =
      if e < 171 then ⟨3, 3⟩ else if e = 171 then ⟨3, 7⟩
        else if e = 172 then ⟨7, 9⟩ else ⟨9, 9⟩ := by
  rw [array.get_of_lt 12 epochs_pow _ e he]
  rfl

theorem offset_ranges : RangesOk offsetSnapshot 138 173 where
  window := by decide
  ordered := by
    intro e h1 h2
    rw [offset_index e (by unfold QEARN_MAX_EPOCHS; omega)]
    split_ifs <;> decide
  contiguous := by
    intro e h1 h2
    rw [offset_index e (by unfold QEARN_MAX_EPOCHS; omega),
      offset_index (e + 1) (by unfold QEARN_MAX_EPOCHS; omega)]
    split_ifs <;> first | rfl | omega
  bounded := by
    intro e h1 h2
    rw [offset_index e (by unfold QEARN_MAX_EPOCHS; omega)]
    split_ifs <;> decide

theorem crowded_slot :
    (windowLive crowdedSnapshot 138 36).length = 131073 ∧
    (mainPass crowdedSnapshot).locker.get 131072 = ⟨131072, 0, 0⟩ ∧
    (windowLive crowdedSnapshot 138 36).getD 131072 default = ⟨131073, 0, 0⟩ := by
  have hlen : (windowLive crowdedSnapshot 138 36).length = 131073 := by
    rw [crowded_windowLive, List.length_map, List.length_range']
  have hlen2 : (windowLive crowdedSnapshot 138 (173 + 1 - 138)).length ≤ QEARN_MAX_LOCKS := by
    show (windowLive crowdedSnapshot 138 36).length ≤ QEARN_MAX_LOCKS
    rw [hlen]
    decide
  refine ⟨hlen, ?_, ?_⟩
  · rw [mainPass_eq, repairPass_locker_get _ _ _ _ _ (by decide) (by decide) (by decide) hlen2,
      if_neg (by decide), crowded_get]
  · rw [crowded_windowLive, List.getD_eq_getElem?_getD, List.getElem?_map,
      List.getElem?_range' _ _ (by decide)]
    simp only [Option.map_some', Option.getD_some, crowded_get]

/-- C18 (counterexample).  The ranges of `crowdedSnapshot` are ordered and
contiguous, the pass collects 131073 live records, and slot 131072 of the
lock table does not hold the record number 131072. -/
theorem rewritten_ranges_offset_fails :
    RangesOk crowdedSnapshot 138 173 ∧
    131072 < (windowLive crowdedSnapshot 138 36).length ∧
    (mainPass crowdedSnapshot).locker.get 131072 ≠
      (windowLive crowdedSnapshot 138 36).getD 131072 default := by
  obtain ⟨h1, h2, h3⟩ := crowded_slot
  refine ⟨crowded_ranges, ?_, ?_⟩
  · rw [h1]
    decide
  · rw [h2, h3]
    decide

/-! ## Instances of the frame and range theorems -/

theorem shifted_index (e : Nat) (he : e < QEARN_MAX_EPOCHS) :
    shiftedSnapshot._epochIndex.get e =
      if e < 138 then ⟨1, 1⟩ else if e = 138 then ⟨1, 2⟩ else ⟨2, 2⟩ := by
  rw [array.get_of_lt 12 epochs_pow _ e he]
  rfl

theorem shifted_ok : RangesOk shiftedSnapshot 138 173 where
  window := by decide
  ordered := by
    intro e h1 h2
    rw [shifted_index e (by unfold QEARN_MAX_EPOCHS; omega)]
    split_ifs <;> decide
  contiguous := by
    intro e h1 h2
    rw [shifted_index e (by unfold QEARN_MAX_EPOCHS; omega),
      shifted_index (e + 1) (by unfold QEARN_MAX_EPOCHS; omega)]
    split_ifs <;> first | rfl | omega
  bounded := by
    intro e h1 h2
    rw [shifted_index e (by unfold QEARN_MAX_EPOCHS; omega)]
    split_ifs <;> decide

/-- C12 (witness).  Epoch 171 of `tidySnapshot`. -/
theorem correction_frame_witness :
    (repairPass 138 173 172 tidySnapshot)._currentRoundInfo.get 171 =
        tidySnapshot._currentRoundInfo.get 171 ∧
    (repairPass 138 173 172 tidySnapshot)._initialRoundInfo.get 171 =
        tidySnapshot._initialRoundInfo.get 171 :=
  correction_frame tidySnapshot 138 173 172 171 (by decide) (by decide) (by decide)
    (by decide) (by decide)

/-- C13 (witness).  The initial table of `tidySnapshot` after the pass. -/
theorem initial_correction_witness :
    (repairPass 138 173 172 tidySnapshot)._initialRoundInfo.get 172 =
        (repairPass 138 173 172 tidySnapshot)._currentRoundInfo.get 172 ∧
    ((repairPass 138 173 172 tidySnapshot)._initialRoundInfo.get 172)._totalLockedAmount =
        amountSum (epochLive tidySnapshot 172) % 2 ^ 64 :=
  ⟨(initial_correction tidySnapshot 138 173 172 (by decide) (by decide) (by decide)).1,
    (initial_correction tidySnapshot 138 173 172 (by decide) (by decide) (by decide)).2.1⟩

/-- C14 (witness).  Slot 131072 of `tidySnapshot`. -/
theorem zero_fill_bound_witness :
    (repairPass 138 173 172 tidySnapshot).locker.get 131072 =
      tidySnapshot.locker.get 131072 :=
  zero_fill_bound tidySnapshot 138 173 172 131072 (by decide) (by decide) (by decide)
    (by decide)

/-- C16 (witness).  The counters of the compaction loop on `tidySnapshot`. -/
theorem live_record_count_witness :
    (compactionPass 138 173 172 (Machine.start tidySnapshot)).newLockerCnt =
        (windowLive tidySnapshot 138 (173 + 1 - 138)).length % 2 ^ 32 ∧
    (compactionPass 138 173 172 (Machine.start tidySnapshot)).cur_cnt =
        windowTombs tidySnapshot 138 (173 + 1 - 138) % 2 ^ 32 ∧
    ((windowLive tidySnapshot 138 (173 + 1 - 138)).length : Int) =
        windowSpan tidySnapshot 138 (173 + 1 - 138) -
          (windowTombs tidySnapshot 138 (173 + 1 - 138) : Int) :=
  ⟨(live_record_count tidySnapshot 138 173 172 (by decide) (by decide)).1,
    (live_record_count tidySnapshot 138 173 172 (by decide) (by decide)).2.1,
    (live_record_count tidySnapshot 138 173 172 (by decide) (by decide)).2.2.2
      tidy_ok.ordered⟩

/-- C18 (witness).  On `offsetSnapshot`, whose first range starts at slot 3 and
which has two tombstones: the rewritten range of epoch 172 starts at `3 + 2`,
the first start stays 3, and slot 2 holds the third live record. -/
theorem rewritten_ranges_offset_witness :
    (((repairPass 138 173 172 offsetSnapshot)._epochIndex.get 172).startIndex =
        (offsetSnapshot._epochIndex.get 138).startIndex +
          (windowLive offsetSnapshot 138 (172 - 138)).length ∧
      ((repairPass 138 173 172 offsetSnapshot)._epochIndex.get 172).endIndex =
        ((repairPass 138 173 172 offsetSnapshot)._epochIndex.get 172).startIndex +
          (epochLive offsetSnapshot 172).length) ∧
    ((repairPass 138 173 172 offsetSnapshot)._epochIndex.get 138).startIndex =
        (offsetSnapshot._epochIndex.get 138).startIndex ∧
    (repairPass 138 173 172 offsetSnapshot).locker.get 2 =
        (windowLive offsetSnapshot 138 (173 + 1 - 138)).getD 2 default :=
  ⟨(rewritten_ranges_offset offsetSnapshot 138 173 172 offset_ranges).1 172 (by decide)
      (by decide),
    (rewritten_ranges_offset offsetSnapshot 138 173 172 offset_ranges).2.1,
    (rewritten_ranges_offset offsetSnapshot 138 173 172 offset_ranges).2.2 (by decide) 2
      (by decide) (by decide)⟩

/-- C19 (witness).  Epochs 138 and 139 of `shiftedSnapshot` after the pass. -/
theorem invariants_preserved_witness :
    ((repairPass 138 173 172 shiftedSnapshot)._epochIndex.get 138).startIndex ≤
        ((repairPass 138 173 172 shiftedSnapshot)._epochIndex.get 138).endIndex ∧
    ((repairPass 138 173 172 shiftedSnapshot)._epochIndex.get 138).endIndex =
        ((repairPass 138 173 172 shiftedSnapshot)._epochIndex.get (138 + 1)).startIndex :=
  ⟨(invariants_preserved shiftedSnapshot 138 173 172 shifted_ok).1 138 (by decide) (by decide),
    (invariants_preserved shiftedSnapshot 138 173 172 shifted_ok).2.1 138 (by decide)
      (by decide)⟩

/-- C20 (witness).  Epoch 137 and the stats table of `tidySnapshot`. -/
theorem index_frame_witness :
    (repairPass 138 173 172 tidySnapshot)._epochIndex.get 137 =
        tidySnapshot._epochIndex.get 137 ∧
    (repairPass 138 173 172 tidySnapshot).statsInfo = tidySnapshot.statsInfo :=
  ⟨(index_frame tidySnapshot 138 173 172 (by decide) (by decide)).1 137 (by decide)
      (by decide),
    (index_frame tidySnapshot 138 173 172 (by decide) (by decide)).2.2.2.2.2⟩

end RecoveryTool
